import Mathlib

/-!
Verification of the HSL ERP warehouse stock ledger and bank reconciliation
core (src/app.py, src/models.py, src/bank_service.py), as a shallow
embedding.  Python floats are modelled as exact rationals (ℚ), SQL rows as
Lean structures, tables as lists kept in primary-key/insertion order
(`Query.first()` is the head of the filtered list), timestamps as natural
numbers, and HTTP handlers as functions `State → Except String State`
(an `error` result is a 4xx response issued before any commit, leaving the
store unchanged, which matches the handlers: every early `return ... 400`
happens before the session is committed).
-/

namespace HSLerp

universe u
variable {α : Type u}

/-- Update the first element of a list satisfying `p` (SQLAlchemy mutates the
single object returned by `Query.first()`). -/
def updateFirst (p : α → Bool) (f : α → α) : List α → List α
  | [] => []
  | a :: as => if p a then f a :: as else a :: updateFirst p f as

-- ════════════════════════════════════════════════════════════
-- Data model (src/models.py); only columns the core logic reads or
-- writes are carried.
-- ════════════════════════════════════════════════════════════

/-- models.py `StocProdus`: current stock per product per location.
`celula_id = none` is the "received but not shelved" bucket. -/
structure StocProdus where
  cod_intern : String
  denumire : String
  celula_id : Option Nat
  cantitate : ℚ
  pret_achizitie_mediu : ℚ
  ultima_miscare : Option Nat
deriving DecidableEq, Repr

/-- models.py `MiscareStoc`: one stock-movement ledger entry. -/
structure MiscareStoc where
  tip : String
  cod_produs : String
  denumire_produs : String
  cantitate : ℚ
  nir_id : Option Nat
  comanda_id : Option Nat
  celula_id : Option Nat
  celula_destinatie_id : Option Nat
  numar_document : String
  observatii : String
  utilizator_id : Option Nat
  data : Nat
deriving DecidableEq, Repr

/-- models.py `VerificareNIR`: one physical-verification entry of a NIR line. -/
structure VerificareNIR where
  cantitate : ℚ
  celula_id : Option Nat
  verificat_de_id : Nat
  data_verificare : Nat
deriving DecidableEq, Repr

/-- models.py `LinieNIR`. -/
structure LinieNIR where
  id : Nat
  cod_intern : String
  denumire_intern : String
  cantitate : ℚ
  pret_achizitie : ℚ
  verificari : List VerificareNIR
deriving DecidableEq, Repr

/-- models.py `NIR` (goods received note). -/
structure NIR where
  id : Nat
  numar : String
  status : String
  linii : List LinieNIR
deriving DecidableEq, Repr

/-- models.py `LinieNIR.cantitate_verificata`: sum of the verification
entries of the line. -/
def LinieNIR.cantitate_verificata (l : LinieNIR) : ℚ :=
  (l.verificari.map VerificareNIR.cantitate).sum

/-- models.py `LinieNIR.verificat_complet`: cumulative verified quantity
has reached the expected quantity. -/
def LinieNIR.verificat_complet (l : LinieNIR) : Bool :=
  decide (l.cantitate ≤ l.cantitate_verificata)

/-- models.py `NIR.progres_verificare`: `(verified line count, line count)`,
`(0, 0)` for a NIR with no lines. -/
def NIR.progres_verificare (n : NIR) : Nat × Nat :=
  if n.linii.length = 0 then (0, 0)
  else ((n.linii.filter LinieNIR.verificat_complet).length, n.linii.length)

/-- models.py `LiniePicking`. -/
structure LiniePicking where
  id : Nat
  ordine : Nat
  cod_intern : String
  denumire : String
  um : String
  cantitate_ceruta : ℚ
  celula_sursa_id : Option Nat
  stoc_disponibil : ℚ
  preluata : Bool
  cantitate_preluata : ℚ
  celula_efectiva_id : Option Nat
  preluat_de_id : Option Nat
  data_preluare : Option Nat
deriving DecidableEq, Repr

/-- models.py `Picking`. -/
structure Picking where
  id : Nat
  numar : String
  comanda_id : Nat
  status : String
  creat_de_id : Option Nat
  data_finalizare : Option Nat
  linii : List LiniePicking
deriving DecidableEq, Repr

/-- models.py `Picking.progres`: `(picked line count, line count)`,
`(0, 0)` for a picking with no lines. -/
def Picking.progres (p : Picking) : Nat × Nat :=
  if p.linii.length = 0 then (0, 0)
  else ((p.linii.filter LiniePicking.preluata).length, p.linii.length)

/-- models.py `NotaLivrare` (delivery note). -/
structure NotaLivrare where
  numar : String
  picking_id : Nat
  comanda_id : Nat
  client_id : Option Nat
  adresa_livrare : String
  creat_de_id : Option Nat
deriving DecidableEq, Repr

/-- models.py `LinieComanda`: the order-line columns read when a picking is
generated. -/
structure LinieComanda where
  cod : String
  denumire : String
  um : String
  cantitate : ℚ
deriving DecidableEq, Repr

/-- models.py `Comanda`: the order columns the WMS handlers touch. -/
structure Comanda where
  id : Nat
  status : String
  client_id : Option Nat
  adresa_livrare : String
  data_livrare_efectiva : Option Nat
  linii : List LinieComanda
deriving DecidableEq, Repr

/-- The relational store as seen by the WMS handlers.  `catalog` is
`ProdusConfig` reduced to `(cod, denumire)`; `mapari` is `MapareCod`
reduced to its `cod_intern` column (the only one `remap-cod` rewrites);
`next_id` models primary-key assignment for rows created by handlers. -/
structure WmsState where
  stocuri : List StocProdus
  miscari : List MiscareStoc
  niruri : List NIR
  pickings : List Picking
  note : List NotaLivrare
  comenzi : List Comanda
  catalog : List (String × String)
  mapari : List String
  next_id : Nat
deriving DecidableEq, Repr

/-- Key of the unique constraint `uq_stoc_produs_celula` on `StocProdus`. -/
def stocKey (cod : String) (cel : Option Nat) (b : StocProdus) : Bool :=
  decide (b.cod_intern = cod ∧ b.celula_id = cel)

-- ════════════════════════════════════════════════════════════
-- WMS handlers (src/app.py)
-- ════════════════════════════════════════════════════════════

/-- Body of the per-line loop of `api_nir_confirma` (app.py): fold one NIR
line into the no-cell stock bucket (weighted-average cost on an existing
bucket, creation otherwise) and append one `intrare_nir` movement. -/
def confirmaLinie (u t nid : Nat) (numar : String)
    (acc : List StocProdus × List MiscareStoc) (l : LinieNIR) :
    List StocProdus × List MiscareStoc :=
  let st := acc.1
  let st2 :=
    match st.find? (stocKey l.cod_intern none) with
    | some stoc =>
        let total_val := stoc.cantitate * stoc.pret_achizitie_mediu
                          + l.cantitate * l.pret_achizitie
        let total_qty := stoc.cantitate + l.cantitate
        let pret := if total_qty ≠ 0 then total_val / total_qty else 0
        updateFirst (stocKey l.cod_intern none)
          (fun b => { b with pret_achizitie_mediu := pret,
                             cantitate := b.cantitate + l.cantitate,
                             ultima_miscare := some t }) st
    | none =>
        st ++ [{ cod_intern := l.cod_intern, denumire := l.denumire_intern,
                 celula_id := none, cantitate := l.cantitate,
                 pret_achizitie_mediu := l.pret_achizitie,
                 ultima_miscare := some t }]
  let ms : MiscareStoc :=
    { tip := "intrare_nir", cod_produs := l.cod_intern,
      denumire_produs := l.denumire_intern, cantitate := l.cantitate,
      nir_id := some nid, comanda_id := none, celula_id := none,
      celula_destinatie_id := none, numar_document := numar,
      observatii := "", utilizator_id := some u, data := t }
  (st2, acc.2 ++ [ms])

/-- app.py `api_nir_confirma` (`/api/wms/nir/<nid>/confirma-scriptic`):
book every line of the NIR into the no-cell bucket and move the document
to `in_verificare`. -/
def api_nir_confirma (s : WmsState) (nid : Nat) (u t : Nat) :
    Except String WmsState :=
  match s.niruri.find? (fun n => n.id == nid) with
  | none => .error "404"
  | some nir =>
    if nir.status = "draft" ∨ nir.status = "scriptic" then
      let r := nir.linii.foldl (confirmaLinie u t nir.id nir.numar)
                 (s.stocuri, s.miscari)
      .ok { s with
            stocuri := r.1, miscari := r.2,
            niruri := updateFirst (fun n => n.id == nid)
                        (fun n => { n with status := "in_verificare" })
                        s.niruri }
    else .error "NIR deja procesat"

/-- Find a NIR line by primary key together with its parent document
(`LinieNIR.query.get_or_404` plus the `l.nir` backref). -/
def gasesteLinieNIR (niruri : List NIR) (lid : Nat) :
    Option (NIR × LinieNIR) :=
  match niruri with
  | [] => none
  | n :: rest =>
      match n.linii.find? (fun l => l.id == lid) with
      | some l => some (n, l)
      | none => gasesteLinieNIR rest lid

/-- The `stoc_nealocat` block of `api_nir_linie_verifica`: clamp the
no-cell bucket at zero, deleting it when emptied. -/
def verificaScadeNealocat (cod : String) (cant : ℚ)
    (stocuri : List StocProdus) : List StocProdus :=
  match stocuri.find? (stocKey cod none) with
  | some stoc_nealocat =>
      let ramas := max 0 (stoc_nealocat.cantitate - cant)
      if ramas = 0 then stocuri.eraseP (stocKey cod none)
      else updateFirst (stocKey cod none)
             (fun b => { b with cantitate := ramas }) stocuri
  | none => stocuri

/-- The `stoc_celula` block of `api_nir_linie_verifica`:
weighted-average the verified quantity into the destination-cell bucket,
creating it when absent. -/
def verificaAdaugaCelula (l : LinieNIR) (cant : ℚ) (c : Nat) (t : Nat)
    (st1 : List StocProdus) : List StocProdus :=
  match st1.find? (stocKey l.cod_intern (some c)) with
  | some stoc_celula =>
      let total_val := stoc_celula.cantitate * stoc_celula.pret_achizitie_mediu
                        + cant * l.pret_achizitie
      let total_qty := stoc_celula.cantitate + cant
      let pret := if total_qty ≠ 0 then total_val / total_qty else 0
      updateFirst (stocKey l.cod_intern (some c))
        (fun b => { b with pret_achizitie_mediu := pret,
                           cantitate := b.cantitate + cant,
                           ultima_miscare := some t }) st1
  | none =>
      st1 ++ [{ cod_intern := l.cod_intern, denumire := l.denumire_intern,
                celula_id := some c, cantitate := cant,
                pret_achizitie_mediu := l.pret_achizitie,
                ultima_miscare := some t }]

/-- Stock effect of `api_nir_linie_verifica` when a destination cell is
given. -/
def verificaMutaStoc (l : LinieNIR) (cant : ℚ) (c : Nat) (t : Nat)
    (stocuri : List StocProdus) : List StocProdus :=
  verificaAdaugaCelula l cant c t
    (verificaScadeNealocat l.cod_intern cant stocuri)

/-- app.py `api_nir_linie_verifica` (`/api/wms/nir/linie/<lid>/verifica`):
record a partial physical verification of one NIR line, optionally moving
the quantity from the no-cell bucket to a destination cell, then set the
document to `verificat` when every line is complete. -/
def api_nir_linie_verifica (s : WmsState) (lid : Nat) (cant : ℚ)
    (celula_id : Option Nat) (u t : Nat) : Except String WmsState :=
  match gasesteLinieNIR s.niruri lid with
  | none => .error "404"
  | some (nir, l) =>
    if nir.status ≠ "in_verificare" then
      .error "NIR-ul nu este în verificare fizică"
    else if cant ≤ 0 then .error "Cantitatea trebuie să fie > 0"
    else
      let ver : VerificareNIR :=
        { cantitate := cant, celula_id := celula_id,
          verificat_de_id := u, data_verificare := t }
      let stocuri2 :=
        match celula_id with
        | none => s.stocuri
        | some c => verificaMutaStoc l cant c t s.stocuri
      let nir2 : NIR :=
        { nir with linii := (updateFirst (fun x => x.id == lid)
            (fun x => { x with verificari := x.verificari ++ [ver] })
            nir.linii) }
      let pv := nir2.progres_verificare
      let nir3 := if pv.2 ≤ pv.1 then { nir2 with status := "verificat" }
                  else nir2
      .ok { s with
            stocuri := stocuri2,
            niruri := updateFirst (fun n => n.id == nir.id) (fun _ => nir3)
                        s.niruri }

/-- First stock bucket with maximal quantity (the head of the
`order_by(cantitate.desc())` query used when generating picking lines). -/
def maxCantitate : List StocProdus → Option StocProdus
  | [] => none
  | b :: rest =>
      match maxCantitate rest with
      | none => some b
      | some m => if b.cantitate < m.cantitate then some m else some b

/-- Line generation of `api_picking_genereaza`: one picking line per order
line with a non-empty code, carrying the best-stocked source cell;
`i` is the loop index, `nid` the next primary key. -/
def genLiniiPicking (stocuri : List StocProdus)
    (linii : List LinieComanda) (i nid : Nat) : List LiniePicking :=
  match linii with
  | [] => []
  | lc :: rest =>
      if lc.cod = "" then genLiniiPicking stocuri rest (i + 1) nid
      else
        let candidati := stocuri.filter (fun b =>
          decide (b.cod_intern = lc.cod) && b.celula_id.isSome
            && decide (0 < b.cantitate))
        let best := maxCantitate candidati
        { id := nid, ordine := i, cod_intern := lc.cod,
          denumire := lc.denumire, um := lc.um,
          cantitate_ceruta := lc.cantitate,
          celula_sursa_id := (match best with
                              | some b => b.celula_id
                              | none => none),
          stoc_disponibil := (match best with
                              | some b => b.cantitate
                              | none => 0),
          preluata := false, cantitate_preluata := 0,
          celula_efectiva_id := none, preluat_de_id := none,
          data_preluare := none } ::
          genLiniiPicking stocuri rest (i + 1) (nid + 1)

/-- app.py `api_picking_genereaza` (`/api/wms/picking/genereaza/<cid>`):
create a picking (status `nou`) for an order in a valid status, if no
active picking exists for it. -/
def api_picking_genereaza (s : WmsState) (cid : Nat) (u t : Nat) :
    Except String WmsState :=
  match s.comenzi.find? (fun c => c.id == cid) with
  | none => .error "404"
  | some cmd =>
    if ¬ (cmd.status = "confirmata" ∨ cmd.status = "productie"
            ∨ cmd.status = "gata") then
      .error "Comanda nu este într-un status valid pentru picking"
    else
      match s.pickings.find? (fun p =>
          p.comanda_id == cid
            && ¬ (p.status == "anulat" || p.status == "livrat")) with
      | some _ => .error "Există deja picking activ"
      | none =>
        let pid := s.next_id
        let linii := genLiniiPicking s.stocuri cmd.linii 0 (s.next_id + 1)
        let pick : Picking :=
          { id := pid, numar := "PICK-" ++ toString t, comanda_id := cid,
            status := "nou", creat_de_id := some u,
            data_finalizare := none, linii := linii }
        .ok { s with
              pickings := s.pickings ++ [pick],
              next_id := s.next_id + 1 + linii.length }

/-- app.py `api_picking_start` (`/api/wms/picking/<pid>/start`). -/
def api_picking_start (s : WmsState) (pid : Nat) : Except String WmsState :=
  match s.pickings.find? (fun p => p.id == pid) with
  | none => .error "404"
  | some pick =>
    if pick.status ≠ "nou" then .error "Picking-ul nu este nou"
    else .ok { s with
               pickings := updateFirst (fun p => p.id == pid)
                 (fun p => { p with status := "in_pregatire" }) s.pickings }

/-- Find a picking line by primary key together with its parent picking
(`LiniePicking.query.get_or_404` plus the `lp.picking` backref). -/
def gasesteLiniePicking (pickings : List Picking) (lid : Nat) :
    Option (Picking × LiniePicking) :=
  match pickings with
  | [] => none
  | p :: rest =>
      match p.linii.find? (fun l => l.id == lid) with
      | some l => some (p, l)
      | none => gasesteLiniePicking rest lid

/-- Cell resolution of `api_picking_linie_prelua`: the requested cell when
given (a non-falsy id), else the line's suggested source cell. -/
def preluaCelula (celReq : Option Nat) (lp : LiniePicking) : Option Nat :=
  match celReq with
  | some c => some c
  | none => lp.celula_sursa_id

/-- The `if celula_id:` stock block of `api_picking_linie_prelua`:
decrease the chosen cell's bucket (rejecting a shortfall, deleting an
emptied bucket) and log one `iesire_comanda` movement; without a resolved
cell, stock and ledger are untouched. -/
def preluaScadeStoc (s : WmsState) (lp : LiniePicking) (pick : Picking)
    (cant : ℚ) (celula_id : Option Nat) (u t : Nat) :
    Except String (List StocProdus × List MiscareStoc) :=
  match celula_id with
  | none => .ok (s.stocuri, s.miscari)
  | some c =>
    match s.stocuri.find? (stocKey lp.cod_intern (some c)) with
    | none => .error "Nu există stoc pe această celulă"
    | some stoc =>
      if stoc.cantitate < cant then
        .error "Stoc insuficient în celulă"
      else
        let ramas := stoc.cantitate - cant
        let st := if ramas = 0 then
                    s.stocuri.eraseP (stocKey lp.cod_intern (some c))
                  else updateFirst (stocKey lp.cod_intern (some c))
                    (fun b => { b with cantitate := ramas,
                                       ultima_miscare := some t })
                    s.stocuri
        let m : MiscareStoc :=
          { tip := "iesire_comanda", cod_produs := lp.cod_intern,
            denumire_produs := "", cantitate := cant,
            nir_id := none, comanda_id := some pick.comanda_id,
            celula_id := some c, celula_destinatie_id := none,
            numar_document := "",
            observatii := "Picking " ++ pick.numar,
            utilizator_id := some u, data := t }
        .ok (st, s.miscari ++ [m])

/-- app.py `api_picking_linie_prelua`
(`/api/wms/picking/linie/<lid>/prelua`): pick a line, decreasing the
chosen cell's stock and logging an `iesire_comanda` movement; the request
may omit the quantity (defaults to the requested quantity) and the cell
(defaults to the line's suggested source cell; with neither, no stock is
touched).  Sets the picking `complet` when every line is picked. -/
def api_picking_linie_prelua (s : WmsState) (lid : Nat)
    (cantReq : Option ℚ) (celReq : Option Nat) (u t : Nat) :
    Except String WmsState :=
  match gasesteLiniePicking s.pickings lid with
  | none => .error "404"
  | some (pick, lp) =>
    if pick.status ≠ "in_pregatire" then
      .error "Picking-ul nu este în pregătire"
    else
      let cant := cantReq.getD lp.cantitate_ceruta
      let celula_id := preluaCelula celReq lp
      if cant ≤ 0 then .error "Cantitate invalidă"
      else
        match preluaScadeStoc s lp pick cant celula_id u t with
        | .error e => .error e
        | .ok r =>
          let pick2 : Picking :=
            { pick with linii := (updateFirst (fun x => x.id == lid)
                (fun x => { x with preluata := true,
                                   cantitate_preluata := cant,
                                   celula_efectiva_id := celula_id,
                                   preluat_de_id := some u,
                                   data_preluare := some t }) pick.linii) }
          let pr := pick2.progres
          let pick3 := if pr.2 ≤ pr.1 then
                         { pick2 with status := "complet",
                                      data_finalizare := some t }
                       else pick2
          .ok { s with
                stocuri := r.1, miscari := r.2,
                pickings := updateFirst (fun p => p.id == pick.id)
                              (fun _ => pick3) s.pickings }

/-- app.py `api_picking_nota_livrare`
(`/api/wms/picking/<pid>/nota-livrare`): generate the delivery note for a
completed picking, then mark the picking `livrat` and the order
`livrata`. -/
def api_picking_nota_livrare (s : WmsState) (pid : Nat) (u t : Nat) :
    Except String WmsState :=
  match s.pickings.find? (fun p => p.id == pid) with
  | none => .error "404"
  | some pick =>
    if pick.status ≠ "complet" then .error "Picking-ul nu este complet"
    else
      match s.note.find? (fun n => n.picking_id == pid) with
      | some _ => .error "Nota de livrare există deja"
      | none =>
        match s.comenzi.find? (fun c => c.id == pick.comanda_id) with
        | none => .error "404"
        | some cmd =>
          let nota : NotaLivrare :=
            { numar := "NL-" ++ toString t, picking_id := pick.id,
              comanda_id := cmd.id, client_id := cmd.client_id,
              adresa_livrare := cmd.adresa_livrare,
              creat_de_id := some u }
          .ok { s with
                note := s.note ++ [nota],
                pickings := updateFirst (fun p => p.id == pid)
                  (fun p => { p with status := "livrat" }) s.pickings,
                comenzi := updateFirst (fun c => c.id == pick.comanda_id)
                  (fun c => { c with status := "livrata",
                                     data_livrare_efectiva := some t })
                  s.comenzi }

/-- app.py `api_wms_transfer` (`/api/wms/transfer`): move a quantity of a
code between two distinct cells, rejecting on insufficient source stock,
weighted-averaging cost at the destination and logging one `transfer`
movement. -/
def api_wms_transfer (s : WmsState) (cod : String) (sursa_id dest_id : Nat)
    (cant : ℚ) (u t : Nat) : Except String WmsState :=
  if cod = "" ∨ cant ≤ 0 then .error "Date invalide"
  else if sursa_id = dest_id then
    .error "Sursa și destinația nu pot fi aceeași celulă"
  else
    match s.stocuri.find? (stocKey cod (some sursa_id)) with
    | none => .error "Stoc insuficient"
    | some stoc_sursa =>
      if stoc_sursa.cantitate < cant then .error "Stoc insuficient"
      else
        let ramas := stoc_sursa.cantitate - cant
        let st1 := if ramas = 0 then
                     s.stocuri.eraseP (stocKey cod (some sursa_id))
                   else updateFirst (stocKey cod (some sursa_id))
                     (fun b => { b with cantitate := ramas,
                                        ultima_miscare := some t })
                     s.stocuri
        let st2 :=
          match st1.find? (stocKey cod (some dest_id)) with
          | some stoc_dest =>
              let total_val := stoc_dest.cantitate
                                 * stoc_dest.pret_achizitie_mediu
                                 + cant * stoc_sursa.pret_achizitie_mediu
              let total_qty := stoc_dest.cantitate + cant
              let pret := if total_qty ≠ 0 then total_val / total_qty else 0
              updateFirst (stocKey cod (some dest_id))
                (fun b => { b with pret_achizitie_mediu := pret,
                                   cantitate := b.cantitate + cant,
                                   ultima_miscare := some t }) st1
          | none =>
              st1 ++ [{ cod_intern := cod, denumire := stoc_sursa.denumire,
                        celula_id := some dest_id, cantitate := cant,
                        pret_achizitie_mediu :=
                          stoc_sursa.pret_achizitie_mediu,
                        ultima_miscare := some t }]
        let m : MiscareStoc :=
          { tip := "transfer", cod_produs := cod, denumire_produs := "",
            cantitate := cant, nir_id := none, comanda_id := none,
            celula_id := some sursa_id,
            celula_destinatie_id := some dest_id, numar_document := "",
            observatii := "Transfer " ++ toString cant ++ " " ++ cod,
            utilizator_id := some u, data := t }
        .ok { s with stocuri := st2, miscari := s.miscari ++ [m] }

/-- One iteration of the `for s in stocuri` loop of `api_wms_remap_cod`:
merge one old-code bucket into an existing new-code bucket at the same
cell (summing quantities, keeping the destination cost, deleting the
source) or rename it in place. -/
def remapPas (cod_vechi cod_nou : String) (catalog : List (String × String))
    (t : Nat) (cur : List StocProdus) (b : StocProdus) : List StocProdus :=
  match cur.find? (stocKey cod_nou b.celula_id) with
  | some _ =>
      (updateFirst (stocKey cod_nou b.celula_id)
        (fun e => { e with cantitate := e.cantitate + b.cantitate,
                           ultima_miscare := some t }) cur).eraseP
        (stocKey cod_vechi b.celula_id)
  | none =>
      updateFirst (stocKey cod_vechi b.celula_id)
        (fun e => { e with
          cod_intern := cod_nou,
          denumire := (match catalog.find? (fun p => p.1 == cod_nou) with
                       | some p => p.2
                       | none => e.denumire) }) cur

/-- app.py `api_wms_remap_cod` (`/api/wms/remap-cod`): remap an
uncatalogued code to a real one across stock buckets, NIR lines, the
movement ledger and the code mappings. -/
def api_wms_remap_cod (s : WmsState) (cod_vechi cod_nou : String) (t : Nat) :
    Except String WmsState :=
  if cod_vechi = "" ∨ cod_nou = "" then
    .error "Ambele coduri sunt obligatorii"
  else if cod_vechi = cod_nou then .error "Codurile sunt identice"
  else
    let stocuri_vechi :=
      s.stocuri.filter (fun b => decide (b.cod_intern = cod_vechi))
    .ok { s with
          stocuri := stocuri_vechi.foldl
            (remapPas cod_vechi cod_nou s.catalog t) s.stocuri,
          niruri := s.niruri.map (fun n =>
            { n with linii := n.linii.map (fun l =>
                if l.cod_intern = cod_vechi then
                  { l with cod_intern := cod_nou }
                else l) }),
          miscari := s.miscari.map (fun m =>
            if m.cod_produs = cod_vechi then { m with cod_produs := cod_nou }
            else m),
          mapari := s.mapari.map (fun c =>
            if c = cod_vechi then cod_nou else c) }

-- ════════════════════════════════════════════════════════════
-- Operation language: any sequence of WMS requests
-- ════════════════════════════════════════════════════════════

/-- One WMS API request with its payload, the acting user and the clock. -/
inductive Op where
  | confirma (nid u t : Nat)
  | verifica (lid : Nat) (cant : ℚ) (celula : Option Nat) (u t : Nat)
  | genereaza (cid u t : Nat)
  | start (pid : Nat)
  | prelua (lid : Nat) (cantReq : Option ℚ) (celReq : Option Nat) (u t : Nat)
  | nota (pid u t : Nat)
  | transfer (cod : String) (sursa dest : Nat) (cant : ℚ) (u t : Nat)
  | remap (vechi nou : String) (t : Nat)
deriving DecidableEq, Repr

/-- Dispatch one request to its handler. -/
def applyOp (s : WmsState) : Op → Except String WmsState
  | .confirma nid u t => api_nir_confirma s nid u t
  | .verifica lid cant cel u t => api_nir_linie_verifica s lid cant cel u t
  | .genereaza cid u t => api_picking_genereaza s cid u t
  | .start pid => api_picking_start s pid
  | .prelua lid cq cr u t => api_picking_linie_prelua s lid cq cr u t
  | .nota pid u t => api_picking_nota_livrare s pid u t
  | .transfer cod sursa dest cant u t =>
      api_wms_transfer s cod sursa dest cant u t
  | .remap vechi nou t => api_wms_remap_cod s vechi nou t

/-- A rejected request (4xx before commit) leaves the store unchanged. -/
def pasOp (s : WmsState) (op : Op) : WmsState :=
  match applyOp s op with
  | .ok s2 => s2
  | .error _ => s

/-- Run a sequence of requests. -/
def runOps (s : WmsState) (ops : List Op) : WmsState := ops.foldl pasOp s

/-- The four stock-touching operation kinds of the quantity invariant:
receipt, line verification, picking-line fulfilment, inter-cell
transfer. -/
def Op.esteStocOp : Op → Bool
  | .confirma .. => true
  | .verifica .. => true
  | .prelua .. => true
  | .transfer .. => true
  | _ => false

/-- Whether the request is a code remap. -/
def Op.esteRemap : Op → Bool
  | .remap .. => true
  | _ => false

-- ════════════════════════════════════════════════════════════
-- Bank reconciliation (src/bank_service.py); strings are scanned as
-- character lists, mirroring the regular expressions of `auto_match`
-- character by character (all searched case-insensitively and
-- leftmost-first, as `re.search(..., re.IGNORECASE)` does).
-- ════════════════════════════════════════════════════════════

/-- models.py `Client`: the columns `auto_match` reads; a missing `cui`
is the empty string (falsy in the Python guards). -/
structure Client where
  id : Nat
  nume : String
  cui : String
deriving DecidableEq, Repr

/-- models.py `Factura`: the invoice columns the reconciliation reads or
writes.  `client` is the ORM relationship (`none` models a dangling row,
falsy in the `if f.client` guards). -/
structure Factura where
  id : Nat
  tip : String
  numar : Nat
  client_id : Nat
  client : Option Client
  oferta_id : Option Nat
  comanda_id : Option Nat
  status : String
  total : ℚ
deriving DecidableEq, Repr

/-- models.py `Incasare`: one incoming bank payment. -/
structure Incasare where
  id : Nat
  suma : ℚ
  platitor_nume : String
  platitor_cui : String
  referinta : String
  detalii : String
  status : String
  factura_id : Option Nat
  client_id : Option Nat
  data_reconciliere : Option Nat
deriving DecidableEq, Repr

/-- Maximal leading digit run (the greedy `\d+`). -/
def takeDigits : List Char → List Char
  | [] => []
  | c :: rest => if c.isDigit then c :: takeDigits rest else []

/-- Value of a digit run, as `int(...)` parses it. -/
def natOfDigits (ds : List Char) : Nat :=
  ds.foldl (fun n c => 10 * n + (c.toNat - 48)) 0

/-- Case-insensitive literal prefix match, returning the rest of the
input; the pattern is given in lowercase. -/
def incepeCu (pat : List Char) (l : List Char) : Option (List Char) :=
  match pat, l with
  | [], rest => some rest
  | _ :: _, [] => none
  | p :: ps, c :: cs => if c.toLower = p then incepeCu ps cs else none

/-- Membership in the character class `[:\s#]`. -/
def inClasaRef (c : Char) : Bool := c = ':' || c = '#' || c.isWhitespace

/-- Greedy skip of `[:\s#]*`. -/
def dupaClasaRef : List Char → List Char
  | [] => []
  | c :: rest => if inClasaRef c then dupaClasaRef rest else c :: rest

/-- Greedy skip of `\s*`. -/
def dupaSpatii : List Char → List Char
  | [] => []
  | c :: rest => if c.isWhitespace then dupaSpatii rest else c :: rest

/-- Match the marker pattern (PF or HSL followed by a dash or a slash and
digits) anchored at the head of the input, returning the referenced
number; the regex group is the full `PF-123`, whose first digit run
`int(...)` then extracts. -/
def refMarcajLa (marcaj : List Char) (l : List Char) : Option Nat :=
  match incepeCu marcaj l with
  | none => none
  | some r1 =>
    match r1 with
    | [] => none
    | sep :: r2 =>
      if sep = '-' ∨ sep = '/' then
        let ds := takeDigits r2
        if ds.isEmpty then none else some (natOfDigits ds)
      else none

/-- Match `(?:w₁|w₂|...)[:\s#]*(\d+)` anchored at the head of the input,
trying the alternatives in order (regex alternation order). -/
def refCuvantLa (cuvinte : List (List Char)) (l : List Char) : Option Nat :=
  match cuvinte with
  | [] => none
  | w :: ws =>
    match incepeCu w l with
    | some rest =>
        let ds := takeDigits (dupaClasaRef rest)
        if ds.isEmpty then refCuvantLa ws l else some (natOfDigits ds)
    | none => refCuvantLa ws l

/-- Match `serie\s*(?:HSL|PF)\s*nr?\s*(\d+)` anchored at the head of the
input; the optional `r` backtracks when taking it would lose the digits. -/
def refSerieLa (l : List Char) : Option Nat :=
  match incepeCu ['s', 'e', 'r', 'i', 'e'] l with
  | none => none
  | some r1 =>
    let r2 := dupaSpatii r1
    let r3 := match incepeCu ['h', 's', 'l'] r2 with
              | some r => some r
              | none => incepeCu ['p', 'f'] r2
    match r3 with
    | none => none
    | some r4 =>
      match dupaSpatii r4 with
      | [] => none
      | n :: r5 =>
        if n.toLower = 'n' then
          let cuR : Option Nat :=
            match r5 with
            | [] => none
            | r :: r6 =>
              if r.toLower = 'r' then
                let ds := takeDigits (dupaSpatii r6)
                if ds.isEmpty then none else some (natOfDigits ds)
              else none
          match cuR with
          | some v => some v
          | none =>
            let ds := takeDigits (dupaSpatii r5)
            if ds.isEmpty then none else some (natOfDigits ds)
        else none

/-- Leftmost search for an anchored matcher: try every start position
left to right, as `re.search` does. -/
def cautaStanga (laPozitie : List Char → Option Nat) :
    List Char → Option Nat
  | [] => laPozitie []
  | c :: rest =>
      match laPozitie (c :: rest) with
      | some n => some n
      | none => cautaStanga laPozitie rest

/-- Leftmost case-insensitive search for PF followed by a dash or slash
and digits (the first pattern of `ref_patterns`). -/
def cautaPF (l : List Char) : Option Nat :=
  cautaStanga (refMarcajLa ['p', 'f']) l

/-- `re.search(r'(?:proforma|pf)[:\s#]*(\d+)', s, re.IGNORECASE)`. -/
def cautaProformaNr (l : List Char) : Option Nat :=
  cautaStanga (refCuvantLa
    [['p', 'r', 'o', 'f', 'o', 'r', 'm', 'a'], ['p', 'f']]) l

/-- Leftmost case-insensitive search for HSL followed by a dash or slash
and digits (the third pattern of `ref_patterns`). -/
def cautaHSL (l : List Char) : Option Nat :=
  cautaStanga (refMarcajLa ['h', 's', 'l']) l

/-- `re.search(r'(?:factura|fact|fct|inv)[:\s#]*(\d+)', s, re.IGNORECASE)`. -/
def cautaFacturaNr (l : List Char) : Option Nat :=
  cautaStanga (refCuvantLa
    [['f', 'a', 'c', 't', 'u', 'r', 'a'], ['f', 'a', 'c', 't'],
     ['f', 'c', 't'], ['i', 'n', 'v']]) l

/-- `re.search(r'(?:serie\s*(?:HSL|PF)\s*nr?\s*)(\d+)', s, re.IGNORECASE)`. -/
def cautaSerie (l : List Char) : Option Nat :=
  cautaStanga refSerieLa l

/-- The unpaid statuses `['emisa', 'trimisa', 'partial']` of `auto_match`. -/
def statusNeplatit (st : String) : Bool :=
  st == "emisa" || st == "trimisa" || st == "partial"

/-- Resolution of a referenced invoice number: first unpaid proforma with
that number, else first unpaid invoice of any type with it. -/
def gasesteFacturaRef (facturi : List Factura) (num : Nat) : Option Factura :=
  match facturi.find? (fun f =>
      f.numar == num && statusNeplatit f.status && f.tip == "proforma") with
  | some f => some f
  | none => facturi.find? (fun f => f.numar == num && statusNeplatit f.status)

/-- One pattern of the priority-1 loop of `auto_match`: when the pattern
matched a number, resolve it and accept only within tolerance; `none`
falls through to the next pattern. -/
def pasReferinta (facturi : List Factura) (suma tol : ℚ) (n : Option Nat) :
    Option (Factura × String) :=
  match n with
  | none => none
  | some num =>
    match gasesteFacturaRef facturi num with
    | none => none
    | some f => if |f.total - suma| < tol then some (f, "referinta")
                else none

/-- Priority 1 of `auto_match`: the five reference patterns in order. -/
def prioritateReferinta (facturi : List Factura) (d : List Char)
    (suma tol : ℚ) : Option (Factura × String) :=
  match pasReferinta facturi suma tol (cautaPF d) with
  | some r => some r
  | none =>
  match pasReferinta facturi suma tol (cautaProformaNr d) with
  | some r => some r
  | none =>
  match pasReferinta facturi suma tol (cautaHSL d) with
  | some r => some r
  | none =>
  match pasReferinta facturi suma tol (cautaFacturaNr d) with
  | some r => some r
  | none => pasReferinta facturi suma tol (cautaSerie d)

/-- Unpaid invoices with proformas listed first (`unpaid_pf + unpaid_fc`). -/
def neplatite (facturi : List Factura) : List Factura :=
  facturi.filter (fun f => statusNeplatit f.status && f.tip == "proforma")
    ++ facturi.filter (fun f => statusNeplatit f.status && f.tip == "fiscala")

/-- Python `str.split()`: whitespace-separated words. -/
def cuvinteAux : List Char → List Char → List (List Char)
  | [], [] => []
  | [], acc => [acc.reverse]
  | c :: rest, acc =>
      if c.isWhitespace then
        if acc.isEmpty then cuvinteAux rest []
        else acc.reverse :: cuvinteAux rest []
      else cuvinteAux rest (c :: acc)

/-- Words of a character list. -/
def cuvinte (l : List Char) : List (List Char) := cuvinteAux l []

/-- Legal-entity suffixes stripped by `_fuzzy_name_match`; the
word-boundary deletion `re.sub(r'\b(...)\b', '', s)` is modelled as
dropping whole whitespace-delimited tokens equal to a suffix (the inputs
are already lowercased). -/
def sufixeFirma : List (List Char) :=
  [['s', 'r', 'l'], ['s', '.', 'r', '.', 'l'], ['s', 'a'], ['s', '.', 'a'],
   ['s', 'c', 's'], ['p', 'f', 'a'], ['i', 'i'],
   ['i', 'm', 'p', 'e', 'x']]

/-- `_fuzzy_name_match` (bank_service.py): strip legal-entity suffixes,
keep significant words (length > 2), and require the overlap to reach
half of the smaller word set. -/
def fuzzyNameMatch (a b : List Char) : Bool :=
  let aClean := (cuvinte a).filter (fun w => ¬ sufixeFirma.contains w)
  let bClean := (cuvinte b).filter (fun w => ¬ sufixeFirma.contains w)
  if aClean.isEmpty || bClean.isEmpty then false
  else
    let wordsA := (aClean.filter (fun w => 2 < w.length)).dedup
    let wordsB := (bClean.filter (fun w => 2 < w.length)).dedup
    if wordsA.isEmpty || wordsB.isEmpty then false
    else
      let overlap := wordsA.filter (fun w => wordsB.contains w)
      decide (min wordsA.length wordsB.length ≤ 2 * overlap.length)

/-- Lowercased characters of a string (`str.lower()` on ASCII data). -/
def toLowerList (s : String) : List Char := s.toList.map Char.toLower

/-- Python substring containment `a in b` on character lists. -/
def contineSublista (mic : List Char) : List Char → Bool
  | [] => mic.isEmpty
  | c :: rest => mic.isPrefixOf (c :: rest) || contineSublista mic rest

/-- The payer-name test of priority 2: containment either way, else fuzzy
match (on lowercased names). -/
def numePotrivit (platitor clientNume : List Char) : Bool :=
  contineSublista clientNume platitor || contineSublista platitor clientNume
    || fuzzyNameMatch platitor clientNume

/-- Priority 2 of `auto_match`: first unpaid invoice (proformas first)
with a matching amount and a payer/client name agreement. -/
def prioritateSumaClient (facturi : List Factura) (platitor : List Char)
    (suma tol : ℚ) : Option (Factura × String) :=
  ((neplatite facturi).find? (fun f =>
      decide (|f.total - suma| < tol) &&
        match f.client with
        | some cl => numePotrivit platitor (toLowerList cl.nume)
        | none => false)).map (fun f => (f, "suma_client"))

/-- Python `str.replace('RO', '')`: delete every (case-sensitive)
occurrence, left to right. -/
def stergeRO : List Char → List Char
  | 'R' :: 'O' :: rest => stergeRO rest
  | c :: rest => c :: stergeRO rest
  | [] => []

/-- Priority 4 of `auto_match`: payer tax id (RO stripped) equals the
client tax id, with a matching amount. -/
def prioritateCui (facturi : List Factura) (platitor_cui : String)
    (suma tol : ℚ) : Option (Factura × String) :=
  if platitor_cui ≠ "" then
    ((neplatite facturi).find? (fun f =>
        match f.client with
        | some cl =>
            cl.cui ≠ "" && decide (|f.total - suma| < tol)
              && stergeRO cl.cui.toList == stergeRO platitor_cui.toList
        | none => false)).map (fun f => (f, "cui_suma"))
  else none

/-- bank_service.py `auto_match`: try to match one payment to an unpaid
invoice, in strict priority order (reference, amount + client name,
unique amount, tax id + amount). -/
def auto_match (facturi : List Factura) (incasare : Incasare)
    (tolerance : ℚ := 1 / 100) : Option (Factura × String) :=
  let suma := incasare.suma
  let detalii := (incasare.detalii ++ " " ++ incasare.referinta).toList
  let platitor := toLowerList incasare.platitor_nume
  match prioritateReferinta facturi detalii suma tolerance with
  | some r => some r
  | none =>
  match prioritateSumaClient facturi platitor suma tolerance with
  | some r => some r
  | none =>
  match (neplatite facturi).filter
      (fun f => decide (|f.total - suma| < tolerance)) with
  | [f] => some (f, "suma_unica")
  | _ => prioritateCui facturi incasare.platitor_cui suma tolerance

-- ════════════════════════════════════════════════════════════
-- Batch reconciliation (bank_service.py `reconcile_batch`)
-- ════════════════════════════════════════════════════════════

/-- models.py `Comanda` reduced to the linkage `_sync_related_invoices`
follows (order id and originating quote id). -/
structure ComandaRef where
  id : Nat
  oferta_id : Option Nat
deriving DecidableEq, Repr

/-- The store as seen by the reconciliation service. -/
structure BancaDB where
  incasari : List Incasare
  facturi : List Factura
  comenzi : List ComandaRef
deriving DecidableEq, Repr

/-- bank_service.py `_sync_related_invoices`: when a fiscal invoice is
paid, mark its related proforma (via order, then quote) paid too, and
vice versa (one hop). -/
def sync_related (facturi : List Factura) (comenzi : List ComandaRef)
    (f : Factura) : List Factura :=
  if f.tip = "fiscala" then
    match f.comanda_id with
    | none => facturi
    | some cid =>
      match comenzi.find? (fun c => c.id == cid) with
      | none => facturi
      | some c =>
        match c.oferta_id with
        | none => facturi
        | some oid =>
            facturi.map (fun pf =>
              if pf.oferta_id == some oid && pf.tip == "proforma"
                  && (pf.status == "emisa" || pf.status == "trimisa"
                        || pf.status == "confirmata") then
                { pf with status := "incasata" }
              else pf)
  else if f.tip = "proforma" then
    match f.oferta_id with
    | none => facturi
    | some oid =>
      match comenzi.find? (fun c => c.oferta_id == some oid) with
      | none => facturi
      | some c =>
          facturi.map (fun fc =>
            if fc.comanda_id == some c.id && fc.tip == "fiscala"
                && (fc.status == "emisa" || fc.status == "trimisa") then
              { fc with status := "incasata" }
            else fc)
  else facturi

/-- Batch reconciliation statistics (`{'total': .., 'matched': .., 'types': ..}`). -/
structure Stats where
  total : Nat
  matched : Nat
  types : List (String × Nat)
deriving DecidableEq, Repr

/-- The payments the batch iterates over: the unreconciled ones,
restricted to `incasari_ids` when that argument is truthy (a non-empty
list; `q.all()` is materialized before the loop runs). -/
def lotIncasari (db : BancaDB) (incasari_ids : Option (List Nat)) :
    List Incasare :=
  db.incasari.filter (fun i =>
    i.status == "nereconciliat" &&
      match incasari_ids with
      | none => true
      | some ids => if ids.isEmpty then true else ids.contains i.id)

/-- The loop of bank_service.py `reconcile_batch`, one payment at a
time: `stats['total'] += 1` runs first; a payment `auto_match` returns
nothing for changes nothing else.  On a match the handler assigns the
payment's link fields and then executes
`inc.data_reconciliere = datetime.now(timezone.utc)` (line 323) — but
the module's only datetime import is
`from datetime import datetime, date, timedelta` (line 10), so
`timezone` is an undefined name and this statement raises `NameError`.
Nothing after it (the invoice status update with its `factura.incasari`
sum, `stats['matched']`, `stats['types']`) ever runs, and the iteration
never reaches a further payment; the link-field assignments made before
the raise live only in the never-committed session. -/
def ruleazaLot (facturi : List Factura) : Stats → List Incasare →
    Except String Stats
  | st, [] => .ok st
  | st, inc :: rest =>
      let st2 := { st with total := st.total + 1 }
      match auto_match facturi inc with
      | none => ruleazaLot facturi st2 rest
      | some _ => .error "NameError: name 'timezone' is not defined"

/-- bank_service.py `reconcile_batch`: iterate the unreconciled payments
(or the requested subset).  The first matched payment raises `NameError`
(see `ruleazaLot`), so the function returns only for a batch in which no
payment matches; the returned stats then count every payment in `total`
with `matched = 0` and an empty `types`, and the single
`db.session.commit()` after the loop commits a store the loop never
changed. -/
def reconcile_batch (db : BancaDB) (incasari_ids : Option (List Nat)) :
    Except String (BancaDB × Stats) :=
  match ruleazaLot db.facturi { total := 0, matched := 0, types := [] }
      (lotIncasari db incasari_ids) with
  | .error e => .error e
  | .ok st => .ok (db, st)

/-- The committed store after a `reconcile_batch` call: an exception
escapes before the single `db.session.commit()`, so the uncommitted
session is discarded and the store keeps its old state; a completed call
commits the store the loop left untouched. -/
def reconcile_batch_commit (db : BancaDB)
    (incasari_ids : Option (List Nat)) : BancaDB :=
  match reconcile_batch db incasari_ids with
  | .error _ => db
  | .ok r => r.1

-- ════════════════════════════════════════════════════════════
-- Specification predicates
-- ════════════════════════════════════════════════════════════

/-- Every stock bucket holds a nonnegative quantity. -/
def StocNeneg (st : List StocProdus) : Prop := ∀ b ∈ st, 0 ≤ b.cantitate

/-- Every NIR line expects a nonnegative quantity (line quantities are
request data the handlers never change). -/
def LiniiNeneg (niruri : List NIR) : Prop :=
  ∀ n ∈ niruri, ∀ l ∈ n.linii, 0 ≤ l.cantitate

/-- Well-formedness carried by the quantity invariant. -/
def WF (s : WmsState) : Prop := StocNeneg s.stocuri ∧ LiniiNeneg s.niruri

/-- Every delivered picking has a delivery note. -/
def NotaInv (s : WmsState) : Prop :=
  ∀ p ∈ s.pickings, p.status = "livrat" →
    ∃ n ∈ s.note, n.picking_id = p.id

/-- Equality of movement entries on every column except the product code
(the one column `remap-cod` rewrites). -/
def eqFaraCod (a b : MiscareStoc) : Prop :=
  a.tip = b.tip ∧ a.denumire_produs = b.denumire_produs
    ∧ a.cantitate = b.cantitate ∧ a.nir_id = b.nir_id
    ∧ a.comanda_id = b.comanda_id ∧ a.celula_id = b.celula_id
    ∧ a.celula_destinatie_id = b.celula_destinatie_id
    ∧ a.numar_document = b.numar_document ∧ a.observatii = b.observatii
    ∧ a.utilizator_id = b.utilizator_id ∧ a.data = b.data

-- ════════════════════════════════════════════════════════════
-- Concrete test fixtures (used by witnesses and counterexamples)
-- ════════════════════════════════════════════════════════════

/-- The empty store. -/
def stareGoala : WmsState :=
  { stocuri := [], miscari := [], niruri := [], pickings := [], note := [],
    comenzi := [], catalog := [], mapari := [], next_id := 100 }

/-- Fixture NIR line: five units of "A" expected at cost 10, nothing
verified yet. -/
def liniaNIR : LinieNIR :=
  { id := 10, cod_intern := "A", denumire_intern := "prodA",
    cantitate := 5, pret_achizitie := 10, verificari := [] }

/-- Fixture NIR under verification holding `liniaNIR`. -/
def nirFix : NIR :=
  { id := 1, numar := "NIR-1", status := "in_verificare",
    linii := [liniaNIR] }

/-- Fixture bucket: two units of "A" at cost 10, not yet shelved. -/
def stocNealocatA : StocProdus :=
  { cod_intern := "A", denumire := "prodA", celula_id := none,
    cantitate := 2, pret_achizitie_mediu := 10, ultima_miscare := none }

/-- Fixture: a NIR under verification expecting five units of product
"A" at cost 10, with only two units left in the no-cell bucket. -/
def stareClamp : WmsState :=
  { stareGoala with stocuri := [stocNealocatA], niruri := [nirFix] }

/-- Fixture NIR booked only scripturally, holding `liniaNIR`. -/
def nirScriptic : NIR :=
  { id := 2, numar := "NIR-2", status := "scriptic", linii := [liniaNIR] }

/-- Fixture: a booked NIR whose single line's product already has a
no-cell bucket. -/
def stareConfirma : WmsState :=
  { stareGoala with stocuri := [stocNealocatA], niruri := [nirScriptic] }

/-- Fixture bucket: four units of "A" at cost 20 in cell 7. -/
def stocA7 : StocProdus :=
  { cod_intern := "A", denumire := "prodA", celula_id := some 7,
    cantitate := 4, pret_achizitie_mediu := 20, ultima_miscare := none }

/-- Fixture: a NIR under verification whose product already has a bucket
in destination cell 7. -/
def stareVerificaCel : WmsState :=
  { stareGoala with stocuri := [stocA7], niruri := [nirFix] }

/-- Fixture bucket: five units of "A" at cost 10 in cell 7. -/
def stocSrc7 : StocProdus :=
  { cod_intern := "A", denumire := "prodA", celula_id := some 7,
    cantitate := 5, pret_achizitie_mediu := 10, ultima_miscare := none }

/-- Fixture bucket: five units of "A" at cost 30 in cell 8. -/
def stocDst8 : StocProdus :=
  { cod_intern := "A", denumire := "prodA", celula_id := some 8,
    cantitate := 5, pret_achizitie_mediu := 30, ultima_miscare := none }

/-- Fixture: stock of "A" in two cells, ready for a transfer. -/
def stareTransfer : WmsState :=
  { stareGoala with stocuri := [stocSrc7, stocDst8] }

/-- Fixture movement: an existing receipt entry for the miscatalogued
code "TMP1". -/
def miscareTmp : MiscareStoc :=
  { tip := "intrare_nir", cod_produs := "TMP1", denumire_produs := "x",
    cantitate := 5, nir_id := some 1, comanda_id := none,
    celula_id := none, celula_destinatie_id := none,
    numar_document := "NIR-1", observatii := "", utilizator_id := some 1,
    data := 3 }

/-- Fixture old-code bucket at cell 7: three units of "TMP1" at cost 99. -/
def stocVechi7 : StocProdus :=
  { cod_intern := "TMP1", denumire := "tmp", celula_id := some 7,
    cantitate := 3, pret_achizitie_mediu := 99, ultima_miscare := none }

/-- Fixture new-code bucket at cell 7: five units of "REAL" at cost 30. -/
def stocNou7 : StocProdus :=
  { cod_intern := "REAL", denumire := "real", celula_id := some 7,
    cantitate := 5, pret_achizitie_mediu := 30, ultima_miscare := none }

/-- Fixture: a ledger entry under the old code, and old- and new-code
buckets sharing cell 7, ready for a remap. -/
def stareRemap : WmsState :=
  { stareGoala with
    miscari := [miscareTmp],
    stocuri := [stocVechi7, stocNou7] }

/-- Fixture picking line: four units of "A" requested, suggested from
cell 7. -/
def liniaPick : LiniePicking :=
  { id := 21, ordine := 0, cod_intern := "A", denumire := "prodA",
    um := "buc", cantitate_ceruta := 4, celula_sursa_id := some 7,
    stoc_disponibil := 1, preluata := false, cantitate_preluata := 0,
    celula_efectiva_id := none, preluat_de_id := none,
    data_preluare := none }

/-- Fixture picking in preparation holding `liniaPick`. -/
def pickingFix : Picking :=
  { id := 20, numar := "PICK-1", comanda_id := 3, status := "in_pregatire",
    creat_de_id := none, data_finalizare := none, linii := [liniaPick] }

/-- Fixture bucket: one unit of "A" in cell 7. -/
def stocCelula7 : StocProdus :=
  { cod_intern := "A", denumire := "prodA", celula_id := some 7,
    cantitate := 1, pret_achizitie_mediu := 10, ultima_miscare := none }

/-- Fixture: a picking in preparation whose line wants more than cell 7
holds. -/
def starePick : WmsState :=
  { stareGoala with stocuri := [stocCelula7], pickings := [pickingFix] }

/-- Fixture picking line already fulfilled once (four units from cell 7). -/
def liniaPreluata : LiniePicking :=
  { liniaPick with
      preluata := true, cantitate_preluata := 4,
      celula_efectiva_id := some 7, preluat_de_id := some 1,
      data_preluare := some 2 }

/-- Fixture picking in preparation whose single line is already picked. -/
def pickingPreluat : Picking :=
  { pickingFix with linii := [liniaPreluata] }

/-- Fixture bucket: ten units of "A" in cell 7. -/
def stocMult7 : StocProdus := { stocCelula7 with cantitate := 10 }

/-- Fixture: an already-picked line with plenty of stock left in its
cell. -/
def starePreluaDublu : WmsState :=
  { stareGoala with stocuri := [stocMult7], pickings := [pickingPreluat] }

/-- Fixture picking line with no suggested source cell. -/
def liniaFaraCel : LiniePicking :=
  { liniaPick with id := 31, celula_sursa_id := none }

/-- Fixture picking in preparation holding `liniaFaraCel`. -/
def pickingFaraCel : Picking :=
  { pickingFix with id := 30, linii := [liniaFaraCel] }

/-- Fixture: a picking whose line resolves to no cell at all. -/
def stareFaraCel : WmsState :=
  { stareGoala with
      stocuri := [stocCelula7], pickings := [pickingFaraCel] }

/-- Fixture client. -/
def cl1 : Client := { id := 1, nume := "ACME SRL", cui := "RO123" }

/-- Fixture decoy: an unpaid fiscal invoice of the payment's amount,
issued to the payer's client — it satisfies the amount-plus-name rule. -/
def fDecoy : Factura :=
  { id := 2, tip := "fiscala", numar := 77, client_id := 1,
    client := some cl1, oferta_id := none, comanda_id := none,
    status := "emisa", total := 500 }

/-- Fixture proforma number 123, unpaid, total 500. -/
def fPF : Factura :=
  { id := 3, tip := "proforma", numar := 123, client_id := 1,
    client := some cl1, oferta_id := none, comanda_id := none,
    status := "emisa", total := 500 }

/-- Fixture payment of 500 whose free text carries the reference
PF-123. -/
def inc1 : Incasare :=
  { id := 5, suma := 500, platitor_nume := "ACME SRL", platitor_cui := "",
    referinta := "", detalii := "plata PF-123", status := "nereconciliat",
    factura_id := none, client_id := none, data_reconciliere := none }

/-- Fixture payment nothing matches. -/
def incB : Incasare :=
  { id := 6, suma := 999, platitor_nume := "X", platitor_cui := "",
    referinta := "", detalii := "fara referinta",
    status := "nereconciliat", factura_id := none, client_id := none,
    data_reconciliere := none }

/-- Fixture store: two unreconciled payments, the first matchable by
reference. -/
def bancaFix : BancaDB :=
  { incasari := [inc1, incB], facturi := [fDecoy, fPF], comenzi := [] }

-- ═══ THEOREMS ═══

section Lemmas

variable {β : Type u}

theorem length_updateFirst (p : β → Bool) (f : β → β) (l : List β) :
    (updateFirst p f l).length = l.length := by
  induction l with
  | nil => rfl
  | cons a as ih =>
      simp only [updateFirst]
      by_cases h : p a <;> simp [h, ih]

theorem mem_updateFirst {p : β → Bool} {f : β → β} {l : List β} {x : β}
    (hx : x ∈ updateFirst p f l) :
    x ∈ l ∨ ∃ b, b ∈ l ∧ p b = true ∧ x = f b := by
  induction l with
  | nil => cases hx
  | cons a as ih =>
      simp only [updateFirst] at hx
      by_cases h : p a
      · simp only [if_pos h, List.mem_cons] at hx
        rcases hx with h1 | h1
        · exact Or.inr ⟨a, List.mem_cons_self a as, h, h1⟩
        · exact Or.inl (List.mem_cons_of_mem a h1)
      · simp only [if_neg h, List.mem_cons] at hx
        rcases hx with h1 | h1
        · exact Or.inl (h1 ▸ List.mem_cons_self a as)
        · rcases ih h1 with h2 | ⟨b, hb, hpb, hfb⟩
          · exact Or.inl (List.mem_cons_of_mem a h2)
          · exact Or.inr ⟨b, List.mem_cons_of_mem a hb, hpb, hfb⟩

theorem find?_updateFirst_self {p : β → Bool} {f : β → β} {l : List β}
    {b : β} (hb : l.find? p = some b) (hfb : p (f b) = true) :
    (updateFirst p f l).find? p = some (f b) := by
  induction l with
  | nil => simp at hb
  | cons a as ih =>
      by_cases h : p a
      · rw [List.find?_cons_of_pos _ h] at hb
        injection hb with hb
        subst hb
        simp only [updateFirst, if_pos h]
        exact List.find?_cons_of_pos _ hfb
      · rw [List.find?_cons_of_neg _ h] at hb
        simp only [updateFirst, if_neg h]
        rw [List.find?_cons_of_neg _ h]
        exact ih hb

theorem find?_updateFirst_const {p : β → Bool} {l : List β} {b v : β}
    (hb : l.find? p = some b) (hv : p v = true) :
    (updateFirst p (fun _ => v) l).find? p = some v :=
  find?_updateFirst_self hb hv

theorem find?_updateFirst_other {p q : β → Bool} {f : β → β} {l : List β}
    (h1 : ∀ x, p x = true → q x = false)
    (h2 : ∀ x, p x = true → q (f x) = false) :
    (updateFirst p f l).find? q = l.find? q := by
  induction l with
  | nil => rfl
  | cons a as ih =>
      by_cases h : p a
      · simp only [updateFirst, if_pos h]
        rw [List.find?_cons_of_neg _ (by simp [h2 a h]),
            List.find?_cons_of_neg _ (by simp [h1 a h])]
      · simp only [updateFirst, if_neg h]
        by_cases hq : q a
        · rw [List.find?_cons_of_pos _ hq, List.find?_cons_of_pos _ hq]
        · rw [List.find?_cons_of_neg _ hq, List.find?_cons_of_neg _ hq]
          exact ih

theorem find?_eraseP_other {p q : β → Bool} {l : List β}
    (h1 : ∀ x, p x = true → q x = false) :
    (l.eraseP p).find? q = l.find? q := by
  induction l with
  | nil => rfl
  | cons a as ih =>
      by_cases h : p a
      · rw [List.eraseP_cons_of_pos h,
            List.find?_cons_of_neg _ (by simp [h1 a h])]
      · rw [List.eraseP_cons_of_neg h]
        by_cases hq : q a
        · rw [List.find?_cons_of_pos _ hq, List.find?_cons_of_pos _ hq]
        · rw [List.find?_cons_of_neg _ hq, List.find?_cons_of_neg _ hq]
          exact ih

theorem find?_key_unic (key : β → Nat) {l : List β} {n : β}
    (hp : l.Pairwise (fun a b => key a ≠ key b)) (hm : n ∈ l) :
    l.find? (fun x => key x == key n) = some n := by
  induction l with
  | nil => cases hm
  | cons a as ih =>
      rcases List.mem_cons.mp hm with rfl | hmem
      · exact List.find?_cons_of_pos _ (by simp)
      · have hne : key a ≠ key n :=
          (List.pairwise_cons.mp hp).1 n hmem
        rw [List.find?_cons_of_neg _ (by simp [hne])]
        exact ih (List.pairwise_cons.mp hp).2 hmem

theorem toate_de_filter_length {p : β → Bool} {l : List β}
    (h : l.length ≤ (l.filter p).length) : ∀ x ∈ l, p x = true := by
  have hlen : (l.filter p).length = l.length :=
    Nat.le_antisymm (l.length_filter_le p) h
  have : l.filter p = l := (l.filter_sublist).eq_of_length hlen
  intro x hx
  exact List.of_mem_filter (this.symm ▸ hx : x ∈ l.filter p)

theorem filter_length_de_toate {p : β → Bool} {l : List β}
    (h : ∀ x ∈ l, p x = true) : l.length ≤ (l.filter p).length := by
  rw [List.filter_eq_self.mpr h]

theorem countP_updateFirst_eq {p q : β → Bool} {f : β → β} {l : List β}
    (h1 : ∀ x, q x = true → p x = false)
    (h2 : ∀ x, q x = true → p (f x) = false) :
    (updateFirst q f l).countP p = l.countP p := by
  induction l with
  | nil => rfl
  | cons a as ih =>
      by_cases hq : q a
      · simp only [updateFirst, if_pos hq]
        have hpa : ¬ p a = true := by simp [h1 a hq]
        have hpf : ¬ p (f a) = true := by simp [h2 a hq]
        rw [List.countP_cons_of_neg _ _ hpf, List.countP_cons_of_neg _ _ hpa]
      · simp only [updateFirst, if_neg hq]
        by_cases hp : p a
        · rw [List.countP_cons_of_pos _ _ hp, List.countP_cons_of_pos _ _ hp,
            ih]
        · rw [List.countP_cons_of_neg _ _ hp, List.countP_cons_of_neg _ _ hp,
            ih]

theorem find?_eraseP_of_countP_le_one {p : β → Bool} {l : List β}
    (h : l.countP p ≤ 1) : (l.eraseP p).find? p = none := by
  induction l with
  | nil => rfl
  | cons a as ih =>
      by_cases hp : p a
      · rw [List.eraseP_cons_of_pos hp, List.find?_eq_none]
        intro x hx hpx
        have hc := List.countP_cons_of_pos p as hp
        have h0 : as.countP p = 0 := by omega
        exact (List.countP_eq_zero.mp h0 x hx) hpx
      · rw [List.eraseP_cons_of_neg hp, List.find?_cons_of_neg _ hp]
        apply ih
        rw [List.countP_cons_of_neg _ _ hp] at h
        exact h

theorem pret_formula (v q : ℚ) : (if q ≠ 0 then v / q else 0) = v / q := by
  split
  · rfl
  · rename_i h
    rw [not_not.mp h, div_zero]

theorem stocKey_disjunct (cod cod2 : String) (cel cel2 : Option Nat)
    (h : cod ≠ cod2 ∨ cel ≠ cel2) :
    ∀ x, stocKey cod cel x = true → stocKey cod2 cel2 x = false := by
  intro x hx
  simp only [stocKey, decide_eq_true_eq] at hx
  simp only [stocKey, decide_eq_false_iff_not]
  rintro ⟨h1, h2⟩
  rcases h with h | h
  · exact h (hx.1.symm.trans h1)
  · exact h (hx.2.symm.trans h2)

end Lemmas

section NenegLemmas

theorem stocNeneg_updateFirst {p : StocProdus → Bool}
    {f : StocProdus → StocProdus} {st : List StocProdus}
    (h : StocNeneg st) (hf : ∀ b ∈ st, p b = true → 0 ≤ (f b).cantitate) :
    StocNeneg (updateFirst p f st) := by
  intro x hx
  rcases mem_updateFirst hx with h1 | ⟨b, hb, hpb, rfl⟩
  · exact h x h1
  · exact hf b hb hpb

theorem stocNeneg_eraseP {p : StocProdus → Bool} {st : List StocProdus}
    (h : StocNeneg st) : StocNeneg (st.eraseP p) := by
  intro x hx
  exact h x (List.mem_of_mem_eraseP hx)

theorem stocNeneg_append {st1 st2 : List StocProdus}
    (h1 : StocNeneg st1) (h2 : StocNeneg st2) : StocNeneg (st1 ++ st2) := by
  intro x hx
  rcases List.mem_append.mp hx with h | h
  · exact h1 x h
  · exact h2 x h

theorem stocNeneg_confirmaLinie (u t nid : Nat) (numar : String)
    {acc : List StocProdus × List MiscareStoc} {l : LinieNIR}
    (h : StocNeneg acc.1) (hl : 0 ≤ l.cantitate) :
    StocNeneg (confirmaLinie u t nid numar acc l).1 := by
  unfold confirmaLinie
  dsimp only
  cases hfind : acc.1.find? (stocKey l.cod_intern none) with
  | some stoc =>
      apply stocNeneg_updateFirst h
      intro b hb _
      exact add_nonneg (h b hb) hl
  | none =>
      apply stocNeneg_append h
      intro x hx
      rw [List.mem_singleton.mp hx]
      exact hl

theorem stocNeneg_foldConfirma (u t nid : Nat) (numar : String)
    (linii : List LinieNIR) :
    ∀ acc : List StocProdus × List MiscareStoc, StocNeneg acc.1 →
      (∀ l ∈ linii, 0 ≤ l.cantitate) →
      StocNeneg (linii.foldl (confirmaLinie u t nid numar) acc).1 := by
  induction linii with
  | nil => intro acc h _; exact h
  | cons l rest ih =>
      intro acc h hl
      simp only [List.foldl_cons]
      exact ih _ (stocNeneg_confirmaLinie u t nid numar h
                    (hl l (List.mem_cons_self l rest)))
        (fun x hx => hl x (List.mem_cons_of_mem l hx))

theorem stocNeneg_verificaScadeNealocat {cod : String} {cant : ℚ}
    {stocuri : List StocProdus} (h : StocNeneg stocuri) :
    StocNeneg (verificaScadeNealocat cod cant stocuri) := by
  unfold verificaScadeNealocat
  cases hfind : stocuri.find? (stocKey cod none) with
  | some b =>
      dsimp only
      split
      · exact stocNeneg_eraseP h
      · exact stocNeneg_updateFirst h (fun x _ _ => le_max_left 0 _)
  | none => exact h

theorem stocNeneg_verificaAdaugaCelula {l : LinieNIR} {cant : ℚ}
    {c t : Nat} {st1 : List StocProdus} (h : StocNeneg st1)
    (hc : 0 ≤ cant) :
    StocNeneg (verificaAdaugaCelula l cant c t st1) := by
  unfold verificaAdaugaCelula
  cases hfind : st1.find? (stocKey l.cod_intern (some c)) with
  | some b =>
      exact stocNeneg_updateFirst h
        (fun x hx _ => add_nonneg (h x hx) hc)
  | none =>
      apply stocNeneg_append h
      intro x hx
      rw [List.mem_singleton.mp hx]
      exact hc

theorem stocNeneg_remapPas {cod_vechi cod_nou : String}
    {catalog : List (String × String)} {t : Nat} {cur : List StocProdus}
    {b : StocProdus} (h : StocNeneg cur) (hb : 0 ≤ b.cantitate) :
    StocNeneg (remapPas cod_vechi cod_nou catalog t cur b) := by
  unfold remapPas
  cases hfind : cur.find? (stocKey cod_nou b.celula_id) with
  | some e =>
      apply stocNeneg_eraseP
      exact stocNeneg_updateFirst h
        (fun x hx _ => add_nonneg (h x hx) hb)
  | none =>
      exact stocNeneg_updateFirst h (fun x hx _ => h x hx)

theorem stocNeneg_foldRemap {cod_vechi cod_nou : String}
    {catalog : List (String × String)} {t : Nat}
    (vechi : List StocProdus) :
    ∀ cur : List StocProdus, StocNeneg cur →
      (∀ b ∈ vechi, 0 ≤ b.cantitate) →
      StocNeneg (vechi.foldl (remapPas cod_vechi cod_nou catalog t) cur) := by
  induction vechi with
  | nil => intro cur h _; exact h
  | cons b rest ih =>
      intro cur h hv
      simp only [List.foldl_cons]
      exact ih _ (stocNeneg_remapPas h (hv b (List.mem_cons_self b rest)))
        (fun x hx => hv x (List.mem_cons_of_mem b hx))

end NenegLemmas

section GasesteLemmas

theorem gasesteLinieNIR_spec {niruri : List NIR} {lid : Nat} {nir : NIR}
    {l : LinieNIR} (h : gasesteLinieNIR niruri lid = some (nir, l)) :
    nir ∈ niruri ∧ nir.linii.find? (fun x => x.id == lid) = some l := by
  induction niruri with
  | nil => cases h
  | cons n rest ih =>
      unfold gasesteLinieNIR at h
      cases hf : n.linii.find? (fun x => x.id == lid) with
      | some l2 =>
          rw [hf] at h
          have h2 : n = nir ∧ l2 = l := by
            simpa using h
          obtain ⟨rfl, rfl⟩ := h2
          exact ⟨List.mem_cons_self n rest, hf⟩
      | none =>
          rw [hf] at h
          have h2 := ih h
          exact ⟨List.mem_cons_of_mem n h2.1, h2.2⟩

theorem gasesteLiniePicking_spec {pickings : List Picking} {lid : Nat}
    {pick : Picking} {lp : LiniePicking}
    (h : gasesteLiniePicking pickings lid = some (pick, lp)) :
    pick ∈ pickings ∧ pick.linii.find? (fun x => x.id == lid) = some lp := by
  induction pickings with
  | nil => cases h
  | cons p rest ih =>
      unfold gasesteLiniePicking at h
      cases hf : p.linii.find? (fun x => x.id == lid) with
      | some l2 =>
          rw [hf] at h
          have h2 : p = pick ∧ l2 = lp := by
            simpa using h
          obtain ⟨rfl, rfl⟩ := h2
          exact ⟨List.mem_cons_self p rest, hf⟩
      | none =>
          rw [hf] at h
          have h2 := ih h
          exact ⟨List.mem_cons_of_mem p h2.1, h2.2⟩

end GasesteLemmas

section WFLemmas

theorem liniiNeneg_status {niruri : List NIR} {nid : Nat} {st : String}
    (h : LiniiNeneg niruri) :
    LiniiNeneg (updateFirst (fun n => n.id == nid)
      (fun n => { n with status := st }) niruri) := by
  intro n hn l hl
  rcases mem_updateFirst hn with h1 | ⟨b, hb, _, rfl⟩
  · exact h n h1 l hl
  · exact h b hb l hl

theorem wf_api_nir_confirma {s : WmsState} {nid u t : Nat} {s2 : WmsState}
    (hw : WF s) (h : api_nir_confirma s nid u t = .ok s2) : WF s2 := by
  unfold api_nir_confirma at h
  split at h
  · cases h
  · rename_i nir hfind
    split at h
    · injection h with h
      subst h
      refine ⟨?_, ?_⟩
      · exact stocNeneg_foldConfirma u t nir.id nir.numar nir.linii
          (s.stocuri, s.miscari) hw.1
          (hw.2 nir (List.mem_of_find?_eq_some hfind))
      · exact liniiNeneg_status hw.2
    · cases h

theorem wf_api_nir_linie_verifica {s : WmsState} {lid : Nat} {cant : ℚ}
    {cel : Option Nat} {u t : Nat} {s2 : WmsState} (hw : WF s)
    (h : api_nir_linie_verifica s lid cant cel u t = .ok s2) : WF s2 := by
  unfold api_nir_linie_verifica at h
  split at h
  · cases h
  · rename_i nir l hfind
    split at h
    · cases h
    · split at h
      · cases h
      · rename_i hstatus hcant
        injection h with h
        subst h
        have hcpos : 0 < cant := not_le.mp hcant
        have hnm := (gasesteLinieNIR_spec hfind).1
        have hnir2 : ∀ l2 ∈ updateFirst (fun x => x.id == lid)
            (fun x => { x with verificari := x.verificari
              ++ [{ cantitate := cant, celula_id := cel,
                    verificat_de_id := u,
                    data_verificare := t : VerificareNIR }] }) nir.linii,
            0 ≤ l2.cantitate := by
          intro l2 hl2
          rcases mem_updateFirst hl2 with h2 | ⟨b2, hb2, _, rfl⟩
          · exact hw.2 nir hnm l2 h2
          · exact hw.2 nir hnm b2 hb2
        refine ⟨?_, ?_⟩
        · dsimp only
          cases cel with
          | none => exact hw.1
          | some c =>
              unfold verificaMutaStoc
              exact stocNeneg_verificaAdaugaCelula
                (stocNeneg_verificaScadeNealocat hw.1) hcpos.le
        · dsimp only
          intro n hn l2 hl2
          rcases mem_updateFirst hn with h1 | ⟨b, hb, _, rfl⟩
          · exact hw.2 n h1 l2 hl2
          · split at hl2 <;> exact hnir2 l2 hl2

theorem wf_api_picking_genereaza {s : WmsState} {cid u t : Nat}
    {s2 : WmsState} (hw : WF s)
    (h : api_picking_genereaza s cid u t = .ok s2) : WF s2 := by
  unfold api_picking_genereaza at h
  split at h
  · cases h
  · split at h
    · cases h
    · split at h
      · cases h
      · injection h with h
        subst h
        exact hw

theorem wf_api_picking_start {s : WmsState} {pid : Nat} {s2 : WmsState}
    (hw : WF s) (h : api_picking_start s pid = .ok s2) : WF s2 := by
  unfold api_picking_start at h
  split at h
  · cases h
  · split at h
    · cases h
    · injection h with h
      subst h
      exact hw

theorem wf_api_picking_nota_livrare {s : WmsState} {pid u t : Nat}
    {s2 : WmsState} (hw : WF s)
    (h : api_picking_nota_livrare s pid u t = .ok s2) : WF s2 := by
  unfold api_picking_nota_livrare at h
  split at h
  · cases h
  · split at h
    · cases h
    · split at h
      · cases h
      · split at h
        · cases h
        · injection h with h
          subst h
          exact hw

theorem stocNeneg_preluaScadeStoc {s : WmsState} {lp : LiniePicking}
    {pick : Picking} {cant : ℚ} {cel : Option Nat} {u t : Nat}
    {r : List StocProdus × List MiscareStoc}
    (hw : StocNeneg s.stocuri)
    (h : preluaScadeStoc s lp pick cant cel u t = .ok r) :
    StocNeneg r.1 := by
  unfold preluaScadeStoc at h
  split at h
  · injection h with h
    rw [← h]
    exact hw
  · split at h
    · cases h
    · split at h
      · cases h
      · rename_i hins
        injection h with h
        rw [← h]
        dsimp only
        split
        · exact stocNeneg_eraseP hw
        · exact stocNeneg_updateFirst hw
            (fun b _ _ => sub_nonneg.mpr (not_lt.mp hins))

theorem wf_api_picking_linie_prelua {s : WmsState} {lid : Nat}
    {cq : Option ℚ} {cr : Option Nat} {u t : Nat} {s2 : WmsState}
    (hw : WF s)
    (h : api_picking_linie_prelua s lid cq cr u t = .ok s2) : WF s2 := by
  unfold api_picking_linie_prelua at h
  split at h
  · cases h
  · rename_i pick lp hfind
    split at h
    · cases h
    · dsimp only at h
      split at h
      · cases h
      · split at h
        · cases h
        · rename_i r hstoc
          injection h with h
          subst h
          exact ⟨stocNeneg_preluaScadeStoc hw.1 hstoc, hw.2⟩

theorem wf_api_wms_transfer {s : WmsState} {cod : String}
    {sursa dest : Nat} {cant : ℚ} {u t : Nat} {s2 : WmsState} (hw : WF s)
    (h : api_wms_transfer s cod sursa dest cant u t = .ok s2) : WF s2 := by
  unfold api_wms_transfer at h
  split at h
  · cases h
  · rename_i hdate
    split at h
    · cases h
    · rename_i hsd
      split at h
      · cases h
      · rename_i stoc_sursa hfs
        split at h
        · cases h
        · rename_i hins
          injection h with h
          subst h
          refine ⟨?_, hw.2⟩
          dsimp only
          have hcant : 0 ≤ cant :=
            (not_le.mp (fun hc => hdate (Or.inr hc))).le
          have hst1 : StocNeneg (if stoc_sursa.cantitate - cant = 0 then
              s.stocuri.eraseP (stocKey cod (some sursa))
            else updateFirst (stocKey cod (some sursa))
              (fun b => { b with cantitate := stoc_sursa.cantitate - cant,
                                 ultima_miscare := some t }) s.stocuri) := by
            split
            · exact stocNeneg_eraseP hw.1
            · exact stocNeneg_updateFirst hw.1
                (fun b _ _ => sub_nonneg.mpr (not_lt.mp hins))
          split
          · exact stocNeneg_updateFirst hst1
              (fun b hb _ => add_nonneg (hst1 b hb) hcant)
          · apply stocNeneg_append hst1
            intro x hx
            rw [List.mem_singleton.mp hx]
            exact hcant

theorem wf_api_wms_remap_cod {s : WmsState} {vechi nou : String} {t : Nat}
    {s2 : WmsState} (hw : WF s)
    (h : api_wms_remap_cod s vechi nou t = .ok s2) : WF s2 := by
  unfold api_wms_remap_cod at h
  split at h
  · cases h
  · split at h
    · cases h
    · injection h with h
      subst h
      refine ⟨?_, ?_⟩
      · dsimp only
        apply stocNeneg_foldRemap _ _ hw.1
        intro b hb
        exact hw.1 b (List.mem_of_mem_filter hb)
      · dsimp only
        intro n hn l hl
        rcases List.mem_map.mp hn with ⟨n0, hn0, rfl⟩
        dsimp only at hl
        rcases List.mem_map.mp hl with ⟨l0, hl0, rfl⟩
        have := hw.2 n0 hn0 l0 hl0
        split <;> exact this

theorem wf_applyOp {s : WmsState} {op : Op} {s2 : WmsState} (hw : WF s)
    (h : applyOp s op = .ok s2) : WF s2 := by
  cases op with
  | confirma nid u t => exact wf_api_nir_confirma hw h
  | verifica lid cant cel u t => exact wf_api_nir_linie_verifica hw h
  | genereaza cid u t => exact wf_api_picking_genereaza hw h
  | start pid => exact wf_api_picking_start hw h
  | prelua lid cq cr u t => exact wf_api_picking_linie_prelua hw h
  | nota pid u t => exact wf_api_picking_nota_livrare hw h
  | transfer cod sursa dest cant u t => exact wf_api_wms_transfer hw h
  | remap vechi nou t => exact wf_api_wms_remap_cod hw h

theorem wf_pasOp {s : WmsState} (op : Op) (hw : WF s) : WF (pasOp s op) := by
  unfold pasOp
  cases h : applyOp s op with
  | ok s2 => exact wf_applyOp hw h
  | error e => exact hw

theorem wf_runOps {s : WmsState} (ops : List Op) (hw : WF s) :
    WF (runOps s ops) := by
  induction ops generalizing s with
  | nil => exact hw
  | cons op rest ih => exact ih (wf_pasOp op hw)

theorem prelua_respins {s : WmsState} {lid : Nat} {cq : Option ℚ}
    {cr : Option Nat} {u t : Nat} {pick : Picking} {lp : LiniePicking}
    {c : Nat} {b : StocProdus}
    (hfind : gasesteLiniePicking s.pickings lid = some (pick, lp))
    (hcel : preluaCelula cr lp = some c)
    (hb : s.stocuri.find? (stocKey lp.cod_intern (some c)) = some b)
    (hins : b.cantitate < cq.getD lp.cantitate_ceruta) :
    ∃ e, applyOp s (.prelua lid cq cr u t) = .error e := by
  show ∃ e, api_picking_linie_prelua s lid cq cr u t = .error e
  unfold api_picking_linie_prelua
  rw [hfind]
  dsimp only
  split
  · exact ⟨_, rfl⟩
  · split
    · exact ⟨_, rfl⟩
    · rename_i hcant
      have hstoc : preluaScadeStoc s lp pick (cq.getD lp.cantitate_ceruta)
          (preluaCelula cr lp) u t = .error "Stoc insuficient în celulă" := by
        unfold preluaScadeStoc
        rw [hcel]
        dsimp only
        rw [hb]
        dsimp only
        rw [if_pos hins]
      rw [hstoc]
      exact ⟨_, rfl⟩

theorem transfer_respins {s : WmsState} {cod : String} {sursa : Nat}
    (dest : Nat)
    {cant : ℚ} {u t : Nat} {b : StocProdus}
    (hb : s.stocuri.find? (stocKey cod (some sursa)) = some b)
    (hins : b.cantitate < cant) :
    ∃ e, applyOp s (.transfer cod sursa dest cant u t) = .error e := by
  show ∃ e, api_wms_transfer s cod sursa dest cant u t = .error e
  unfold api_wms_transfer
  split
  · exact ⟨_, rfl⟩
  · split
    · exact ⟨_, rfl⟩
    · rw [hb]
      dsimp only
      rw [if_pos hins]
      exact ⟨_, rfl⟩

end WFLemmas

theorem notaInv_applyOp {s : WmsState} {op : Op} {s2 : WmsState}
    (hn : NotaInv s) (h : applyOp s op = .ok s2) : NotaInv s2 := by
  cases op with
  | confirma nid u t =>
      replace h : api_nir_confirma s nid u t = .ok s2 := h
      unfold api_nir_confirma at h
      split at h
      · cases h
      · split at h
        · injection h with h
          subst h
          exact hn
        · cases h
  | verifica lid cant cel u t =>
      replace h : api_nir_linie_verifica s lid cant cel u t = .ok s2 := h
      unfold api_nir_linie_verifica at h
      split at h
      · cases h
      · split at h
        · cases h
        · split at h
          · cases h
          · injection h with h
            subst h
            exact hn
  | remap vechi nou t =>
      replace h : api_wms_remap_cod s vechi nou t = .ok s2 := h
      unfold api_wms_remap_cod at h
      split at h
      · cases h
      · split at h
        · cases h
        · injection h with h
          subst h
          exact hn
  | genereaza cid u t =>
      replace h : api_picking_genereaza s cid u t = .ok s2 := h
      unfold api_picking_genereaza at h
      split at h
      · cases h
      · split at h
        · cases h
        · split at h
          · cases h
          · injection h with h
            subst h
            intro p hp hst
            rcases List.mem_append.mp hp with h1 | h1
            · exact hn p h1 hst
            · rw [List.mem_singleton.mp h1] at hst
              simp at hst
  | start pid =>
      replace h : api_picking_start s pid = .ok s2 := h
      unfold api_picking_start at h
      split at h
      · cases h
      · split at h
        · cases h
        · injection h with h
          subst h
          intro p hp hst
          rcases mem_updateFirst hp with h1 | ⟨b, hb, _, rfl⟩
          · exact hn p h1 hst
          · simp at hst
  | prelua lid cq cr u t =>
      replace h : api_picking_linie_prelua s lid cq cr u t = .ok s2 := h
      unfold api_picking_linie_prelua at h
      split at h
      · cases h
      · rename_i pick lp hfind
        split at h
        · cases h
        · rename_i hstatus
          dsimp only at h
          split at h
          · cases h
          · split at h
            · cases h
            · injection h with h
              subst h
              intro p hp hst
              rcases mem_updateFirst hp with h1 | ⟨b, hb, _, rfl⟩
              · exact hn p h1 hst
              · split at hst
                · simp at hst
                · rw [not_not.mp (fun hne => hstatus hne)] at hst
                  simp at hst
  | nota pid u t =>
      replace h : api_picking_nota_livrare s pid u t = .ok s2 := h
      unfold api_picking_nota_livrare at h
      split at h
      · cases h
      · rename_i pick hfind
        split at h
        · cases h
        · split at h
          · cases h
          · split at h
            · cases h
            · injection h with h
              subst h
              intro p hp hst
              rcases mem_updateFirst hp with h1 | ⟨b, hb, hpb, rfl⟩
              · obtain ⟨n, hn2, he⟩ := hn p h1 hst
                exact ⟨n, List.mem_append_left _ hn2, he⟩
              · refine ⟨_, List.mem_append_right _
                  (List.mem_singleton_self _), ?_⟩
                show pick.id = _
                have h1 : pick.id = pid := by
                  simpa using List.find?_some hfind
                have h2 : b.id = pid := by simpa using hpb
                dsimp only
                rw [h1, h2]
  | transfer cod sursa dest cant u t =>
      replace h : api_wms_transfer s cod sursa dest cant u t = .ok s2 := h
      unfold api_wms_transfer at h
      split at h
      · cases h
      · split at h
        · cases h
        · split at h
          · cases h
          · split at h
            · cases h
            · injection h with h
              subst h
              exact hn

theorem notaInv_pasOp {s : WmsState} (op : Op) (hn : NotaInv s) :
    NotaInv (pasOp s op) := by
  unfold pasOp
  cases h : applyOp s op with
  | ok s2 => exact notaInv_applyOp hn h
  | error e => exact hn

theorem notaInv_runOps {s : WmsState} (ops : List Op) (hn : NotaInv s) :
    NotaInv (runOps s ops) := by
  induction ops generalizing s with
  | nil => exact hn
  | cons op rest ih => exact ih (notaInv_pasOp op hn)

theorem prelua_complet {s : WmsState} {lid : Nat} {cq : Option ℚ}
    {cr : Option Nat} {u t : Nat} {s2 : WmsState}
    (hids : s.pickings.Pairwise (fun a b => a.id ≠ b.id))
    (h : applyOp s (.prelua lid cq cr u t) = .ok s2) :
    ∃ pick lp pick2,
      gasesteLiniePicking s.pickings lid = some (pick, lp)
      ∧ s2.pickings.find? (fun p => p.id == pick.id) = some pick2
      ∧ (pick2.status = "complet" ↔ ∀ x ∈ pick2.linii, x.preluata = true)
      ∧ (pick2.status = "complet" ∨ pick2.status = "in_pregatire") := by
  replace h : api_picking_linie_prelua s lid cq cr u t = .ok s2 := h
  unfold api_picking_linie_prelua at h
  split at h
  · cases h
  · rename_i pick lp hfind
    split at h
    · cases h
    · rename_i hstatus
      dsimp only at h
      split at h
      · cases h
      · split at h
        · cases h
        · rename_i r hstoc
          injection h with h
          subst h
          have hmem : pick ∈ s.pickings := (gasesteLiniePicking_spec hfind).1
          have hlmem : lp ∈ pick.linii :=
            List.mem_of_find?_eq_some (gasesteLiniePicking_spec hfind).2
          have hne : pick.linii.length ≠ 0 :=
            Nat.pos_iff_ne_zero.mp
              (List.length_pos.mpr (List.ne_nil_of_mem hlmem))
          have hst' : pick.status = "in_pregatire" :=
            not_not.mp (fun hne2 => hstatus hne2)
          have hfindp : s.pickings.find? (fun p => p.id == pick.id)
              = some pick := find?_key_unic Picking.id hids hmem
          refine ⟨pick, lp, _,  hfind,
            find?_updateFirst_self hfindp ?_, ?_, ?_⟩
          · dsimp only
            split <;> simp
          · dsimp only
            split
            · rename_i hcond
              unfold Picking.progres at hcond
              dsimp only at hcond
              rw [length_updateFirst] at hcond
              rw [if_neg hne] at hcond
              dsimp only at hcond
              exact ⟨fun _ => toate_de_filter_length
                (le_trans (le_of_eq (length_updateFirst _ _ _)) hcond),
                fun _ => rfl⟩
            · rename_i hcond
              unfold Picking.progres at hcond
              dsimp only at hcond
              rw [length_updateFirst] at hcond
              rw [if_neg hne] at hcond
              dsimp only at hcond
              dsimp only
              rw [hst']
              constructor
              · intro hfalse
                exact absurd hfalse (by decide)
              · intro hall
                exact absurd (le_trans
                  (le_of_eq (length_updateFirst _ _ _).symm)
                  (filter_length_de_toate hall)) hcond
          · dsimp only
            split
            · exact Or.inl rfl
            · exact Or.inr (by dsimp only; rw [hst'])

theorem eqFaraCod_refl (m : MiscareStoc) : eqFaraCod m m :=
  ⟨rfl, rfl, rfl, rfl, rfl, rfl, rfl, rfl, rfl, rfl, rfl⟩

theorem getElem?_foldConfirma (u t nid : Nat) (numar : String)
    (linii : List LinieNIR) :
    ∀ (acc : List StocProdus × List MiscareStoc) (i : Nat),
      i < acc.2.length →
      ((linii.foldl (confirmaLinie u t nid numar) acc).2)[i]?
        = (acc.2)[i]? := by
  induction linii with
  | nil => intro acc i hi; rfl
  | cons l rest ih =>
      intro acc i hi
      rw [List.foldl_cons]
      obtain ⟨m, hm⟩ : ∃ m,
          (confirmaLinie u t nid numar acc l).2 = acc.2 ++ [m] := ⟨_, rfl⟩
      rw [ih (confirmaLinie u t nid numar acc l) i
        (by rw [hm, List.length_append]; exact Nat.lt_succ_of_lt hi),
        hm, List.getElem?_append_left hi]

theorem miscari_preluaScadeStoc {s : WmsState} {lp : LiniePicking}
    {pick : Picking} {cant : ℚ} {cel : Option Nat} {u t : Nat}
    {r : List StocProdus × List MiscareStoc}
    (h : preluaScadeStoc s lp pick cant cel u t = .ok r) :
    r.2 = s.miscari ∨ ∃ m, r.2 = s.miscari ++ [m] := by
  unfold preluaScadeStoc at h
  split at h
  · injection h with h
    rw [← h]
    exact Or.inl rfl
  · split at h
    · cases h
    · split at h
      · cases h
      · injection h with h
        rw [← h]
        exact Or.inr ⟨_, rfl⟩

/-- Claim C7 (amended): across every successful request, every movement
entry that existed before keeps its position and every column except
`cod_produs`; a request other than `remap-cod` leaves it fully
unchanged (`remap-cod` rewrites `cod_produs` in place, so the ledger is
append-only only up to that column — see the counterexample). -/
theorem C7_amendat :
    ∀ (s : WmsState) (op : Op) (s2 : WmsState), applyOp s op = .ok s2 →
      ∀ i, i < s.miscari.length →
        ∃ m m2, (s.miscari)[i]? = some m ∧ (s2.miscari)[i]? = some m2
          ∧ eqFaraCod m m2
          ∧ (op.esteRemap = false → m2 = m) := by
  intro s op s2 h i hi
  obtain ⟨m, hm⟩ : ∃ m, (s.miscari)[i]? = some m :=
    ⟨_, (List.getElem?_eq_getElem hi)⟩
  have hgen : ∀ (extra : List MiscareStoc),
      s2.miscari = s.miscari ++ extra →
      ∃ m m2, (s.miscari)[i]? = some m ∧ (s2.miscari)[i]? = some m2
        ∧ eqFaraCod m m2 ∧ (op.esteRemap = false → m2 = m) := by
    intro extra he
    refine ⟨m, m, hm, ?_, eqFaraCod_refl m, fun _ => rfl⟩
    rw [he, List.getElem?_append_left hi]
    exact hm
  cases op with
  | confirma nid u t =>
      replace h : api_nir_confirma s nid u t = .ok s2 := h
      unfold api_nir_confirma at h
      split at h
      · cases h
      · rename_i nir hfind
        split at h
        · injection h with h
          subst h
          refine ⟨m, m, hm, ?_, eqFaraCod_refl m, fun _ => rfl⟩
          dsimp only
          rw [getElem?_foldConfirma u t nir.id nir.numar nir.linii
            (s.stocuri, s.miscari) i hi]
          exact hm
        · cases h
  | verifica lid cant cel u t =>
      replace h : api_nir_linie_verifica s lid cant cel u t = .ok s2 := h
      unfold api_nir_linie_verifica at h
      split at h
      · cases h
      · split at h
        · cases h
        · split at h
          · cases h
          · injection h with h
            subst h
            exact hgen [] (List.append_nil _).symm
  | genereaza cid u t =>
      replace h : api_picking_genereaza s cid u t = .ok s2 := h
      unfold api_picking_genereaza at h
      split at h
      · cases h
      · split at h
        · cases h
        · split at h
          · cases h
          · injection h with h
            subst h
            exact hgen [] (List.append_nil _).symm
  | start pid =>
      replace h : api_picking_start s pid = .ok s2 := h
      unfold api_picking_start at h
      split at h
      · cases h
      · split at h
        · cases h
        · injection h with h
          subst h
          exact hgen [] (List.append_nil _).symm
  | prelua lid cq cr u t =>
      replace h : api_picking_linie_prelua s lid cq cr u t = .ok s2 := h
      unfold api_picking_linie_prelua at h
      split at h
      · cases h
      · split at h
        · cases h
        · dsimp only at h
          split at h
          · cases h
          · split at h
            · cases h
            · rename_i r hstoc
              injection h with h
              subst h
              rcases miscari_preluaScadeStoc hstoc with he | ⟨m2, he⟩
              · exact hgen [] (by dsimp only; rw [he, List.append_nil])
              · exact hgen [m2] (by dsimp only; rw [he])
  | nota pid u t =>
      replace h : api_picking_nota_livrare s pid u t = .ok s2 := h
      unfold api_picking_nota_livrare at h
      split at h
      · cases h
      · split at h
        · cases h
        · split at h
          · cases h
          · split at h
            · cases h
            · injection h with h
              subst h
              exact hgen [] (List.append_nil _).symm
  | transfer cod sursa dest cant u t =>
      replace h : api_wms_transfer s cod sursa dest cant u t = .ok s2 := h
      unfold api_wms_transfer at h
      split at h
      · cases h
      · split at h
        · cases h
        · split at h
          · cases h
          · split at h
            · cases h
            · injection h with h
              subst h
              exact hgen [_] rfl
  | remap vechi nou t =>
      replace h : api_wms_remap_cod s vechi nou t = .ok s2 := h
      unfold api_wms_remap_cod at h
      split at h
      · cases h
      · split at h
        · cases h
        · injection h with h
          subst h
          refine ⟨m, if m.cod_produs = vechi then
              { m with cod_produs := nou } else m, hm, ?_, ?_, ?_⟩
          · dsimp only
            rw [List.getElem?_map, hm]
            rfl
          · split <;> exact eqFaraCod_refl _
          · intro hfalse
            cases hfalse

unseal Rat.add Rat.sub Rat.mul Rat.inv in
/-- Claim C7, counterexample: remapping "TMP1" to "REAL" rewrites the
`cod_produs` column of a previously created movement entry in place — the
ledger row is modified after creation, and the request succeeds. -/
theorem C7_contraexemplu :
    ((stareRemap.miscari)[0]?).map MiscareStoc.cod_produs = some "TMP1"
      ∧ (((pasOp stareRemap (.remap "TMP1" "REAL" 5)).miscari)[0]?).map
          MiscareStoc.cod_produs = some "REAL"
      ∧ (applyOp stareRemap (.remap "TMP1" "REAL" 5)).isOk = true := by
  decide

unseal Rat.add Rat.sub Rat.mul Rat.inv in
/-- Claim C7 witness: the amended theorem applied to the remap fixture —
the pre-existing ledger entry survives in place with every column except
the product code intact. -/
theorem C7_amendat_witness :
    ∃ m m2, ((stareRemap.miscari)[0]?) = some m
      ∧ (((pasOp stareRemap (.remap "TMP1" "REAL" 5)).miscari)[0]?)
          = some m2
      ∧ eqFaraCod m m2
      ∧ ((Op.remap "TMP1" "REAL" 5).esteRemap = false → m2 = m) :=
  C7_amendat stareRemap (.remap "TMP1" "REAL" 5)
    (pasOp stareRemap (.remap "TMP1" "REAL" 5)) rfl 0 (by decide)

/-- Claim C8: when remapping an old code to a new one and a bucket for
the new code exists at the same cell as an old-code bucket, the
destination bucket's quantity becomes the sum of both quantities, its
weighted-average cost is left unchanged (the source cost is discarded,
not averaged in), and the source bucket disappears. -/
theorem C8_remap_merge (s : WmsState) (vechi nou : String) (t : Nat)
    (bv bn : StocProdus)
    (hv : vechi ≠ "") (hn : nou ≠ "") (hvn : vechi ≠ nou)
    (hvechi : s.stocuri.filter
      (fun b => decide (b.cod_intern = vechi)) = [bv])
    (hnou : s.stocuri.find? (stocKey nou bv.celula_id) = some bn) :
    ∃ s2 b2, applyOp s (.remap vechi nou t) = .ok s2
      ∧ s2.stocuri.find? (stocKey nou bv.celula_id) = some b2
      ∧ b2.cantitate = bn.cantitate + bv.cantitate
      ∧ b2.pret_achizitie_mediu = bn.pret_achizitie_mediu
      ∧ s2.stocuri.find? (stocKey vechi bv.celula_id) = none := by
  have hq1 := stocKey_disjunct nou vechi bv.celula_id bv.celula_id
    (Or.inl (Ne.symm hvn))
  have hp1 := stocKey_disjunct vechi nou bv.celula_id bv.celula_id
    (Or.inl hvn)
  have hkeyn : stocKey nou bv.celula_id bn = true := List.find?_some hnou
  have hcp : s.stocuri.countP (stocKey vechi bv.celula_id) ≤ 1 := by
    have hm : s.stocuri.countP (stocKey vechi bv.celula_id)
        ≤ s.stocuri.countP (fun b => decide (b.cod_intern = vechi)) :=
      List.countP_mono_left (fun b _ hb => by
        simp only [stocKey, decide_eq_true_eq] at hb
        simp [hb.1])
    have he : s.stocuri.countP
        (fun b => decide (b.cod_intern = vechi)) = 1 := by
      rw [List.countP_eq_length_filter, hvechi]
      rfl
    omega
  show ∃ s2 b2, api_wms_remap_cod s vechi nou t = .ok s2 ∧ _
  unfold api_wms_remap_cod
  rw [if_neg (not_or.mpr ⟨hv, hn⟩), if_neg hvn]
  dsimp only
  rw [hvechi]
  simp only [List.foldl_cons, List.foldl_nil]
  unfold remapPas
  rw [hnou]
  dsimp only
  refine ⟨_,
    { bn with cantitate := bn.cantitate + bv.cantitate, ultima_miscare := some t },
    rfl, ?_, rfl, rfl, ?_⟩
  · rw [find?_eraseP_other hp1]
    exact find?_updateFirst_self hnou hkeyn
  · apply find?_eraseP_of_countP_le_one
    rw [countP_updateFirst_eq
      (f := fun e => { e with cantitate := e.cantitate + bv.cantitate, ultima_miscare := some t })
      hq1 (fun x hx => hq1 x hx)]
    exact hcp

/-- Claim C9: fulfilling a picking line that is already marked
`preluata = true` is not rejected — when the picking is in preparation
and the resolved cell has enough stock, the request succeeds, decrements
the cell's bucket by the requested quantity a second time, appends a
second `iesire_comanda` movement, and overwrites the line's picked
quantity, cell, actor and timestamp with the new values. -/
theorem C9_prelua_dublu (s : WmsState) (lid : Nat) (cq : Option ℚ)
    (cr : Option Nat) (u t : Nat) (pick : Picking) (lp : LiniePicking)
    (c : Nat) (b : StocProdus)
    (hfind : gasesteLiniePicking s.pickings lid = some (pick, lp))
    (_hprel : lp.preluata = true)
    (hst : pick.status = "in_pregatire")
    (hcel : preluaCelula cr lp = some c)
    (hb : s.stocuri.find? (stocKey lp.cod_intern (some c)) = some b)
    (hcant : 0 < cq.getD lp.cantitate_ceruta)
    (hq : ¬ b.cantitate < cq.getD lp.cantitate_ceruta)
    (hne0 : b.cantitate - cq.getD lp.cantitate_ceruta ≠ 0)
    (hids : s.pickings.Pairwise (fun a b => a.id ≠ b.id)) :
    ∃ s2, applyOp s (.prelua lid cq cr u t) = .ok s2
      ∧ s2.stocuri.find? (stocKey lp.cod_intern (some c))
          = some { b with
              cantitate := b.cantitate - cq.getD lp.cantitate_ceruta,
              ultima_miscare := some t }
      ∧ (∃ m, s2.miscari = s.miscari ++ [m] ∧ m.tip = "iesire_comanda"
          ∧ m.cantitate = cq.getD lp.cantitate_ceruta
          ∧ m.celula_id = some c)
      ∧ (∃ pick2 lp2,
          s2.pickings.find? (fun p => p.id == pick.id) = some pick2
          ∧ pick2.linii.find? (fun x => x.id == lid) = some lp2
          ∧ lp2.preluata = true
          ∧ lp2.cantitate_preluata = cq.getD lp.cantitate_ceruta
          ∧ lp2.celula_efectiva_id = preluaCelula cr lp
          ∧ lp2.preluat_de_id = some u
          ∧ lp2.data_preluare = some t) := by
  have hmem : pick ∈ s.pickings := (gasesteLiniePicking_spec hfind).1
  have hlf : pick.linii.find? (fun x => x.id == lid) = some lp :=
    (gasesteLiniePicking_spec hfind).2
  have hfindp : s.pickings.find? (fun p => p.id == pick.id) = some pick :=
    find?_key_unic Picking.id hids hmem
  have hstoc : preluaScadeStoc s lp pick (cq.getD lp.cantitate_ceruta)
      (preluaCelula cr lp) u t
      = .ok (updateFirst (stocKey lp.cod_intern (some c))
          (fun bb => { bb with
            cantitate := b.cantitate - cq.getD lp.cantitate_ceruta,
            ultima_miscare := some t }) s.stocuri,
        s.miscari ++
          [{ tip := "iesire_comanda", cod_produs := lp.cod_intern,
             denumire_produs := "",
             cantitate := cq.getD lp.cantitate_ceruta, nir_id := none,
             comanda_id := some pick.comanda_id, celula_id := some c,
             celula_destinatie_id := none, numar_document := "",
             observatii := "Picking " ++ pick.numar,
             utilizator_id := some u, data := t }]) := by
    unfold preluaScadeStoc
    rw [hcel]
    try dsimp only
    rw [hb]
    try dsimp only
    rw [if_neg hq]
    try dsimp only
    rw [if_neg hne0]
  show ∃ s2, api_picking_linie_prelua s lid cq cr u t = .ok s2 ∧ _
  unfold api_picking_linie_prelua
  rw [hfind]
  dsimp only
  rw [if_neg (fun hc => hc hst), if_neg (not_le.mpr hcant), hstoc]
  dsimp only
  refine ⟨_, rfl,
    find?_updateFirst_self
      (f := fun bb => { bb with
        cantitate := b.cantitate - cq.getD lp.cantitate_ceruta,
        ultima_miscare := some t }) (b := b) hb
      (by have hx := List.find?_some hb; exact hx),
    ⟨_, rfl, rfl, rfl, rfl⟩, ?_⟩
  refine ⟨_,
    { lp with preluata := true, cantitate_preluata := cq.getD lp.cantitate_ceruta, celula_efectiva_id := preluaCelula cr lp, preluat_de_id := some u, data_preluare := some t },
    find?_updateFirst_const (b := pick) hfindp ?_,
    ?_, rfl, rfl, rfl, rfl, rfl⟩
  · dsimp only
    split <;> simp
  · dsimp only
    split <;> exact find?_updateFirst_self hlf
      (by have hx := List.find?_some hlf; exact hx)

unseal Rat.add Rat.sub Rat.mul Rat.inv in
/-- Claim C8 witness: remapping "TMP1" to "REAL" on the fixture with
buckets of both codes at cell 7 sums the quantities (5 + 3) while the
destination keeps its cost of 30, and the old bucket is gone. -/
theorem C8_remap_merge_witness :
    ∃ s2 b2, applyOp stareRemap (.remap "TMP1" "REAL" 5) = .ok s2
      ∧ s2.stocuri.find? (stocKey "REAL" stocVechi7.celula_id) = some b2
      ∧ b2.cantitate = stocNou7.cantitate + stocVechi7.cantitate
      ∧ b2.pret_achizitie_mediu = stocNou7.pret_achizitie_mediu
      ∧ s2.stocuri.find? (stocKey "TMP1" stocVechi7.celula_id) = none :=
  C8_remap_merge stareRemap "TMP1" "REAL" 5 stocVechi7 stocNou7
    (by decide) (by decide) (by decide) (by decide) (by decide)

unseal Rat.add Rat.sub Rat.mul Rat.inv in
/-- Claim C1, counterexample: verifying 3 units of a line when the no-cell
bucket holds only 2 would drive that bucket to −1, yet the request is not
rejected — it succeeds and changes the stock buckets (the handler clamps
the bucket at zero instead of rejecting the request as a whole). -/
theorem C1_contraexemplu :
    (stareClamp.stocuri.find? (stocKey "A" none)).map
        StocProdus.cantitate = some 2
      ∧ ((2 : ℚ) - 3 < 0)
      ∧ (applyOp stareClamp (.verifica 10 3 (some 7) 1 2)).isOk = true
      ∧ pasOp stareClamp (.verifica 10 3 (some 7) 1 2) ≠ stareClamp := by
  decide

/-- Claim C1 (amended): after any sequence of receipt, verification,
transfer and picking requests, every stock-bucket quantity stays
nonnegative; a picking-line fulfilment or an inter-cell transfer that
would drive a bucket negative is rejected as a whole (an error response
with no state change); the verification path, however, clamps the no-cell
bucket at zero instead of rejecting (see the counterexample). -/
theorem C1_amendat :
    (∀ (s : WmsState) (ops : List Op), WF s →
        (∀ op ∈ ops, op.esteStocOp = true) →
        StocNeneg (runOps s ops).stocuri)
    ∧ (∀ (s : WmsState) (lid : Nat) (cq : Option ℚ) (cr : Option Nat)
          (u t : Nat) (pick : Picking) (lp : LiniePicking) (c : Nat)
          (b : StocProdus),
        gasesteLiniePicking s.pickings lid = some (pick, lp) →
        preluaCelula cr lp = some c →
        s.stocuri.find? (stocKey lp.cod_intern (some c)) = some b →
        b.cantitate < cq.getD lp.cantitate_ceruta →
        (∃ e, applyOp s (.prelua lid cq cr u t) = .error e)
          ∧ pasOp s (.prelua lid cq cr u t) = s)
    ∧ (∀ (s : WmsState) (cod : String) (sursa dest : Nat) (cant : ℚ)
          (u t : Nat) (b : StocProdus),
        s.stocuri.find? (stocKey cod (some sursa)) = some b →
        b.cantitate < cant →
        (∃ e, applyOp s (.transfer cod sursa dest cant u t) = .error e)
          ∧ pasOp s (.transfer cod sursa dest cant u t) = s) := by
  refine ⟨?_, ?_, ?_⟩
  · intro s ops hw _
    exact (wf_runOps ops hw).1
  · intro s lid cq cr u t pick lp c b hfind hcel hb hins
    obtain ⟨e, he⟩ := prelua_respins hfind hcel hb hins
    exact ⟨⟨e, he⟩, by unfold pasOp; rw [he]⟩
  · intro s cod sursa dest cant u t b hb hins
    obtain ⟨e, he⟩ := transfer_respins dest (u := u) (t := t) hb hins
    exact ⟨⟨e, he⟩, by unfold pasOp; rw [he]⟩

theorem pret_verifica {s : WmsState} {lid : Nat} {cant : ℚ} {c : Nat}
    {u t : Nat} {nir : NIR} {l : LinieNIR} {b : StocProdus}
    (hfind : gasesteLinieNIR s.niruri lid = some (nir, l))
    (hst : nir.status = "in_verificare") (hcant : 0 < cant)
    (hb : s.stocuri.find? (stocKey l.cod_intern (some c)) = some b) :
    ∃ s2 b2, applyOp s (.verifica lid cant (some c) u t) = .ok s2
      ∧ s2.stocuri.find? (stocKey l.cod_intern (some c)) = some b2
      ∧ b2.cantitate = b.cantitate + cant
      ∧ b2.pret_achizitie_mediu
          = (b.cantitate * b.pret_achizitie_mediu + cant * l.pret_achizitie)
              / (b.cantitate + cant)
      ∧ (b.cantitate = 0 → b2.pret_achizitie_mediu = l.pret_achizitie) := by
  have hdisj := stocKey_disjunct l.cod_intern l.cod_intern none (some c)
    (Or.inr (by simp))
  have hst1 : (verificaScadeNealocat l.cod_intern cant s.stocuri).find?
      (stocKey l.cod_intern (some c)) = some b := by
    unfold verificaScadeNealocat
    cases hn : s.stocuri.find? (stocKey l.cod_intern none) with
    | none => exact hb
    | some bn =>
        dsimp only
        split
        · rw [find?_eraseP_other hdisj]
          exact hb
        · rw [find?_updateFirst_other
            (f := fun bb => { bb with
              cantitate := max 0 (bn.cantitate - cant) })
            hdisj (fun x hx => hdisj x hx)]
          exact hb
  have hkeyb : stocKey l.cod_intern (some c) b = true := List.find?_some hb
  have hmove := find?_updateFirst_self
    (f := fun x => { x with
      pret_achizitie_mediu :=
        if b.cantitate + cant ≠ 0 then
          (b.cantitate * b.pret_achizitie_mediu + cant * l.pret_achizitie)
            / (b.cantitate + cant)
        else 0,
      cantitate := x.cantitate + cant, ultima_miscare := some t })
    hst1 hkeyb
  show ∃ s2 b2, api_nir_linie_verifica s lid cant (some c) u t = .ok s2 ∧ _
  unfold api_nir_linie_verifica
  rw [hfind]
  dsimp only
  rw [if_neg (fun hc => hc hst), if_neg (not_le.mpr hcant)]
  have hf2 : (verificaMutaStoc l cant c t s.stocuri).find?
      (stocKey l.cod_intern (some c))
      = some { b with
          pret_achizitie_mediu :=
            if b.cantitate + cant ≠ 0 then
              (b.cantitate * b.pret_achizitie_mediu
                + cant * l.pret_achizitie) / (b.cantitate + cant)
            else 0,
          cantitate := b.cantitate + cant, ultima_miscare := some t } := by
    unfold verificaMutaStoc verificaAdaugaCelula
    rw [hst1]
    dsimp only
    exact hmove
  refine ⟨_, _, rfl, hf2, rfl, pret_formula _ _, fun h0 => ?_⟩
  show (if b.cantitate + cant ≠ 0 then
      (b.cantitate * b.pret_achizitie_mediu + cant * l.pret_achizitie)
        / (b.cantitate + cant) else 0) = l.pret_achizitie
  rw [pret_formula, h0, zero_mul, zero_add, zero_add,
    mul_div_cancel_left₀ _ hcant.ne']

theorem pret_confirma {s : WmsState} {nid u t : Nat} {nir : NIR}
    {l : LinieNIR} {b : StocProdus}
    (hfind : s.niruri.find? (fun n => n.id == nid) = some nir)
    (hstatus : nir.status = "draft" ∨ nir.status = "scriptic")
    (hlin : nir.linii = [l])
    (hb : s.stocuri.find? (stocKey l.cod_intern none) = some b) :
    ∃ s2 b2, applyOp s (.confirma nid u t) = .ok s2
      ∧ s2.stocuri.find? (stocKey l.cod_intern none) = some b2
      ∧ b2.cantitate = b.cantitate + l.cantitate
      ∧ b2.pret_achizitie_mediu
          = (b.cantitate * b.pret_achizitie_mediu
              + l.cantitate * l.pret_achizitie)
              / (b.cantitate + l.cantitate)
      ∧ (b.cantitate = 0 → l.cantitate ≠ 0 →
          b2.pret_achizitie_mediu = l.pret_achizitie) := by
  have hkeyb : stocKey l.cod_intern none b = true := List.find?_some hb
  have hmove := find?_updateFirst_self
    (f := fun x => { x with
      pret_achizitie_mediu :=
        if b.cantitate + l.cantitate ≠ 0 then
          (b.cantitate * b.pret_achizitie_mediu
            + l.cantitate * l.pret_achizitie) / (b.cantitate + l.cantitate)
        else 0,
      cantitate := x.cantitate + l.cantitate, ultima_miscare := some t })
    hb hkeyb
  have hf2 : ((confirmaLinie u t nir.id nir.numar (s.stocuri, s.miscari) l).1).find?
      (stocKey l.cod_intern none)
      = some { b with
          pret_achizitie_mediu :=
            if b.cantitate + l.cantitate ≠ 0 then
              (b.cantitate * b.pret_achizitie_mediu
                + l.cantitate * l.pret_achizitie)
                / (b.cantitate + l.cantitate)
            else 0,
          cantitate := b.cantitate + l.cantitate,
          ultima_miscare := some t } := by
    unfold confirmaLinie
    dsimp only
    rw [hb]
    dsimp only
    exact hmove
  show ∃ s2 b2, api_nir_confirma s nid u t = .ok s2 ∧ _
  unfold api_nir_confirma
  rw [hfind]
  dsimp only
  rw [if_pos hstatus, hlin]
  simp only [List.foldl_cons, List.foldl_nil]
  refine ⟨_, _, rfl, hf2, rfl, pret_formula _ _, fun h0 hl0 => ?_⟩
  show (if b.cantitate + l.cantitate ≠ 0 then
      (b.cantitate * b.pret_achizitie_mediu + l.cantitate * l.pret_achizitie)
        / (b.cantitate + l.cantitate) else 0) = l.pret_achizitie
  rw [pret_formula, h0, zero_mul, zero_add, zero_add,
    mul_div_cancel_left₀ _ hl0]

theorem pret_transfer {s : WmsState} {cod : String} {sursa dest : Nat}
    {cant : ℚ} {u t : Nat} {bs bd : StocProdus}
    (hcod : cod ≠ "") (hcant : 0 < cant) (hsd : sursa ≠ dest)
    (hbs : s.stocuri.find? (stocKey cod (some sursa)) = some bs)
    (hins : ¬ bs.cantitate < cant)
    (hbd : s.stocuri.find? (stocKey cod (some dest)) = some bd) :
    ∃ s2 b2, applyOp s (.transfer cod sursa dest cant u t) = .ok s2
      ∧ s2.stocuri.find? (stocKey cod (some dest)) = some b2
      ∧ b2.cantitate = bd.cantitate + cant
      ∧ b2.pret_achizitie_mediu
          = (bd.cantitate * bd.pret_achizitie_mediu
              + cant * bs.pret_achizitie_mediu) / (bd.cantitate + cant)
      ∧ (bd.cantitate = 0 →
          b2.pret_achizitie_mediu = bs.pret_achizitie_mediu) := by
  have hdisj := stocKey_disjunct cod cod (some sursa) (some dest)
    (Or.inr (fun hcc => hsd (Option.some.inj hcc)))
  have hst1d : (if bs.cantitate - cant = 0 then
        s.stocuri.eraseP (stocKey cod (some sursa))
      else updateFirst (stocKey cod (some sursa))
        (fun b => { b with cantitate := bs.cantitate - cant,
                           ultima_miscare := some t }) s.stocuri).find?
      (stocKey cod (some dest)) = some bd := by
    split
    · rw [find?_eraseP_other hdisj]
      exact hbd
    · rw [find?_updateFirst_other
        (f := fun b => { b with cantitate := bs.cantitate - cant,
                                ultima_miscare := some t })
        hdisj (fun x hx => hdisj x hx)]
      exact hbd
  have hkeyd : stocKey cod (some dest) bd = true := List.find?_some hbd
  have hmove := find?_updateFirst_self
    (f := fun x => { x with
      pret_achizitie_mediu :=
        if bd.cantitate + cant ≠ 0 then
          (bd.cantitate * bd.pret_achizitie_mediu
            + cant * bs.pret_achizitie_mediu) / (bd.cantitate + cant)
        else 0,
      cantitate := x.cantitate + cant, ultima_miscare := some t })
    hst1d hkeyd
  show ∃ s2 b2, api_wms_transfer s cod sursa dest cant u t = .ok s2 ∧ _
  unfold api_wms_transfer
  rw [if_neg (not_or.mpr ⟨hcod, not_le.mpr hcant⟩), if_neg hsd, hbs]
  dsimp only
  rw [if_neg hins, hst1d]
  dsimp only
  refine ⟨_, _, rfl, hmove, rfl, pret_formula _ _, fun h0 => ?_⟩
  show (if bd.cantitate + cant ≠ 0 then
      (bd.cantitate * bd.pret_achizitie_mediu
        + cant * bs.pret_achizitie_mediu) / (bd.cantitate + cant) else 0)
      = bs.pret_achizitie_mediu
  rw [pret_formula, h0, zero_mul, zero_add, zero_add,
    mul_div_cancel_left₀ _ hcant.ne']

/-- Claim C3: on each of the three inbound movements into an existing
bucket — booking a NIR line into the no-cell bucket, verifying into a
destination cell, and transferring into a destination cell — the bucket's
weighted-average cost is recomputed as `(q1*c1 + q2*c2) / (q1 + q2)` and
its quantity becomes `q1 + q2`; when the prior quantity `q1` is zero (and
the incoming quantity is not, which the verify and transfer guards
enforce), the new cost equals the incoming cost `c2`. -/
theorem C3_medie_ponderata :
    (∀ (s : WmsState) (nid u t : Nat) (nir : NIR) (l : LinieNIR)
        (b : StocProdus),
      s.niruri.find? (fun n => n.id == nid) = some nir →
      nir.status = "draft" ∨ nir.status = "scriptic" →
      nir.linii = [l] →
      s.stocuri.find? (stocKey l.cod_intern none) = some b →
      ∃ s2 b2, applyOp s (.confirma nid u t) = .ok s2
        ∧ s2.stocuri.find? (stocKey l.cod_intern none) = some b2
        ∧ b2.cantitate = b.cantitate + l.cantitate
        ∧ b2.pret_achizitie_mediu
            = (b.cantitate * b.pret_achizitie_mediu
                + l.cantitate * l.pret_achizitie)
                / (b.cantitate + l.cantitate)
        ∧ (b.cantitate = 0 → l.cantitate ≠ 0 →
            b2.pret_achizitie_mediu = l.pret_achizitie))
    ∧ (∀ (s : WmsState) (lid : Nat) (cant : ℚ) (c u t : Nat) (nir : NIR)
          (l : LinieNIR) (b : StocProdus),
        gasesteLinieNIR s.niruri lid = some (nir, l) →
        nir.status = "in_verificare" → 0 < cant →
        s.stocuri.find? (stocKey l.cod_intern (some c)) = some b →
        ∃ s2 b2, applyOp s (.verifica lid cant (some c) u t) = .ok s2
          ∧ s2.stocuri.find? (stocKey l.cod_intern (some c)) = some b2
          ∧ b2.cantitate = b.cantitate + cant
          ∧ b2.pret_achizitie_mediu
              = (b.cantitate * b.pret_achizitie_mediu
                  + cant * l.pret_achizitie) / (b.cantitate + cant)
          ∧ (b.cantitate = 0 → b2.pret_achizitie_mediu = l.pret_achizitie))
    ∧ (∀ (s : WmsState) (cod : String) (sursa dest : Nat) (cant : ℚ)
          (u t : Nat) (bs bd : StocProdus),
        cod ≠ "" → 0 < cant → sursa ≠ dest →
        s.stocuri.find? (stocKey cod (some sursa)) = some bs →
        ¬ bs.cantitate < cant →
        s.stocuri.find? (stocKey cod (some dest)) = some bd →
        ∃ s2 b2, applyOp s (.transfer cod sursa dest cant u t) = .ok s2
          ∧ s2.stocuri.find? (stocKey cod (some dest)) = some b2
          ∧ b2.cantitate = bd.cantitate + cant
          ∧ b2.pret_achizitie_mediu
              = (bd.cantitate * bd.pret_achizitie_mediu
                  + cant * bs.pret_achizitie_mediu) / (bd.cantitate + cant)
          ∧ (bd.cantitate = 0 →
              b2.pret_achizitie_mediu = bs.pret_achizitie_mediu)) :=
  ⟨fun _ _ _ _ _ _ _ h1 h2 h3 h4 => pret_confirma h1 h2 h3 h4,
   fun _ _ _ _ _ _ _ _ _ h1 h2 h3 h4 => pret_verifica h1 h2 h3 h4,
   fun _ _ _ _ _ _ _ _ _ h1 h2 h3 h4 h5 h6 =>
     pret_transfer h1 h2 h3 h4 h5 h6⟩

unseal Rat.add Rat.sub Rat.mul Rat.inv in
/-- Claim C3 witness: the three inbound paths applied to concrete stores
— booking two more units onto the fixture no-cell bucket, verifying three
units into occupied cell 7, and transferring two units from cell 7 to
cell 8. -/
theorem C3_medie_ponderata_witness :
    (∃ s2 b2, applyOp stareConfirma (.confirma 2 1 9) = .ok s2
      ∧ s2.stocuri.find? (stocKey liniaNIR.cod_intern none) = some b2
      ∧ b2.cantitate = stocNealocatA.cantitate + liniaNIR.cantitate
      ∧ b2.pret_achizitie_mediu
          = (stocNealocatA.cantitate * stocNealocatA.pret_achizitie_mediu
              + liniaNIR.cantitate * liniaNIR.pret_achizitie)
              / (stocNealocatA.cantitate + liniaNIR.cantitate)
      ∧ (stocNealocatA.cantitate = 0 → liniaNIR.cantitate ≠ 0 →
          b2.pret_achizitie_mediu = liniaNIR.pret_achizitie))
    ∧ (∃ s2 b2, applyOp stareVerificaCel (.verifica 10 3 (some 7) 1 9)
          = .ok s2
        ∧ s2.stocuri.find? (stocKey liniaNIR.cod_intern (some 7)) = some b2
        ∧ b2.cantitate = stocA7.cantitate + 3
        ∧ b2.pret_achizitie_mediu
            = (stocA7.cantitate * stocA7.pret_achizitie_mediu
                + 3 * liniaNIR.pret_achizitie) / (stocA7.cantitate + 3)
        ∧ (stocA7.cantitate = 0 →
            b2.pret_achizitie_mediu = liniaNIR.pret_achizitie))
    ∧ (∃ s2 b2, applyOp stareTransfer (.transfer "A" 7 8 2 1 9) = .ok s2
        ∧ s2.stocuri.find? (stocKey "A" (some 8)) = some b2
        ∧ b2.cantitate = stocDst8.cantitate + 2
        ∧ b2.pret_achizitie_mediu
            = (stocDst8.cantitate * stocDst8.pret_achizitie_mediu
                + 2 * stocSrc7.pret_achizitie_mediu)
                / (stocDst8.cantitate + 2)
        ∧ (stocDst8.cantitate = 0 →
            b2.pret_achizitie_mediu = stocSrc7.pret_achizitie_mediu)) :=
  ⟨C3_medie_ponderata.1 stareConfirma 2 1 9 nirScriptic liniaNIR
      stocNealocatA (by decide) (by decide) (by decide) (by decide),
   C3_medie_ponderata.2.1 stareVerificaCel 10 3 7 1 9 nirFix liniaNIR
      stocA7 (by decide) (by decide) (by decide) (by decide),
   C3_medie_ponderata.2.2 stareTransfer "A" 7 8 2 1 9 stocSrc7 stocDst8
      (by decide) (by decide) (by decide) (by decide) (by decide)
      (by decide)⟩

/-- Claim C2: a verification call against a NIR under verification
succeeds, and in the resulting store the document's status is `verificat`
exactly when every one of its lines is cumulatively verified up to its
expected quantity (the new verification entry included); otherwise the
document stays `in_verificare` — so the call that completes the last
deficient line, and only that call, triggers the transition. -/
theorem C2_nir_verificat (s : WmsState) (lid : Nat) (cant : ℚ)
    (cel : Option Nat) (u t : Nat) (nir : NIR) (l : LinieNIR)
    (hfind : gasesteLinieNIR s.niruri lid = some (nir, l))
    (hst : nir.status = "in_verificare") (hcant : 0 < cant)
    (hids : s.niruri.Pairwise (fun a b => a.id ≠ b.id)) :
    ∃ s2 nir2, applyOp s (.verifica lid cant cel u t) = .ok s2
      ∧ s2.niruri.find? (fun n => n.id == nir.id) = some nir2
      ∧ ((nir2.status = "verificat")
          ↔ ∀ x ∈ nir2.linii, x.verificat_complet = true)
      ∧ (nir2.status = "verificat" ∨ nir2.status = "in_verificare") := by
  have hmem : nir ∈ s.niruri := (gasesteLinieNIR_spec hfind).1
  have hlmem : l ∈ nir.linii :=
    List.mem_of_find?_eq_some (gasesteLinieNIR_spec hfind).2
  have hne : nir.linii.length ≠ 0 :=
    Nat.pos_iff_ne_zero.mp (List.length_pos.mpr (List.ne_nil_of_mem hlmem))
  have hfindnir : s.niruri.find? (fun n => n.id == nir.id) = some nir :=
    find?_key_unic NIR.id hids hmem
  show ∃ s2 nir2, api_nir_linie_verifica s lid cant cel u t = .ok s2 ∧ _
  unfold api_nir_linie_verifica
  rw [hfind]
  dsimp only
  rw [if_neg (fun hc => hc hst), if_neg (not_le.mpr hcant)]
  refine ⟨_, _, rfl, find?_updateFirst_self hfindnir ?_, ?_, ?_⟩
  · -- the updated document keeps the document id
    dsimp only
    split <;> simp
  · -- status is verificat iff every line is complete
    dsimp only
    split
    · rename_i hcond
      unfold NIR.progres_verificare at hcond
      dsimp only at hcond
      rw [length_updateFirst] at hcond
      rw [if_neg hne] at hcond
      dsimp only at hcond
      exact ⟨fun _ => toate_de_filter_length
        (le_trans (le_of_eq (length_updateFirst _ _ _)) hcond),
        fun _ => rfl⟩
    · rename_i hcond
      unfold NIR.progres_verificare at hcond
      dsimp only at hcond
      rw [length_updateFirst] at hcond
      rw [if_neg hne] at hcond
      dsimp only at hcond
      dsimp only
      rw [hst]
      constructor
      · intro hfalse
        exact absurd hfalse (by decide)
      · intro hall
        exact absurd (le_trans
          (le_of_eq (length_updateFirst _ _ _).symm)
          (filter_length_de_toate hall)) hcond
  · -- and otherwise the document stays in_verificare
    dsimp only
    split
    · exact Or.inl rfl
    · exact Or.inr (by dsimp only; rw [hst])

unseal Rat.add Rat.sub Rat.mul Rat.inv in
/-- Claim C2 witness: verifying the five outstanding units of the single
line of the fixture NIR succeeds and flips the document to `verificat`,
with every line complete. -/
theorem C2_nir_verificat_witness :
    ∃ s2 nir2, applyOp stareClamp (.verifica 10 5 (some 7) 1 2) = .ok s2
      ∧ s2.niruri.find? (fun n => n.id == nirFix.id) = some nir2
      ∧ ((nir2.status = "verificat")
          ↔ ∀ x ∈ nir2.linii, x.verificat_complet = true)
      ∧ (nir2.status = "verificat" ∨ nir2.status = "in_verificare") :=
  C2_nir_verificat stareClamp 10 5 (some 7) 1 2 nirFix liniaNIR
    (by decide) (by decide) (by decide) (by decide)

unseal Rat.add Rat.sub Rat.mul Rat.inv in
/-- Claim C1 witness: the amended theorem applied to concrete stores — a
run of the clamping verification keeps every bucket nonnegative, and a
picking of 4 units from a cell holding 1 is rejected. -/
theorem C1_amendat_witness :
    StocNeneg (runOps stareClamp [Op.verifica 10 3 (some 7) 1 2]).stocuri
      ∧ (∃ e, applyOp starePick (.prelua 21 none none 1 2) = .error e)
      ∧ (∃ e, applyOp starePick
          (.transfer "A" 7 8 9 1 2) = .error e) :=
  ⟨C1_amendat.1 stareClamp [Op.verifica 10 3 (some 7) 1 2]
      (by unfold WF StocNeneg LiniiNeneg; decide) (by decide),
   (C1_amendat.2.1 starePick 21 none none 1 2 pickingFix liniaPick 7
      stocCelula7 (by decide) (by decide) (by decide) (by decide)).1,
   (C1_amendat.2.2 starePick "A" 7 8 9 1 2 stocCelula7
      (by decide) (by decide)).1⟩

/-- Claim C4: in every store reachable by a sequence of requests from a
store in which each delivered picking has its delivery note, a picking
with status `livrat` still has a delivery note (the note is created
before the status is set, and nothing deletes notes); and a successful
picking-line fulfilment leaves the picking with status `complet` exactly
when every one of its lines has `preluata = true` (otherwise it stays
`in_pregatire`). -/
theorem C4_picking :
    (∀ (s : WmsState) (ops : List Op), NotaInv s → NotaInv (runOps s ops))
    ∧ (∀ (s : WmsState) (lid : Nat) (cq : Option ℚ) (cr : Option Nat)
          (u t : Nat) (s2 : WmsState),
        s.pickings.Pairwise (fun a b => a.id ≠ b.id) →
        applyOp s (.prelua lid cq cr u t) = .ok s2 →
        ∃ pick lp pick2,
          gasesteLiniePicking s.pickings lid = some (pick, lp)
          ∧ s2.pickings.find? (fun p => p.id == pick.id) = some pick2
          ∧ (pick2.status = "complet"
              ↔ ∀ x ∈ pick2.linii, x.preluata = true)
          ∧ (pick2.status = "complet"
              ∨ pick2.status = "in_pregatire")) :=
  ⟨fun _ ops hn => notaInv_runOps ops hn,
   fun _ _ _ _ _ _ _ h1 h2 => prelua_complet h1 h2⟩

unseal Rat.add Rat.sub Rat.mul Rat.inv in
/-- Claim C4 witness: a run that picks the single line of the fixture
picking and then generates its delivery note preserves the
delivered-implies-note invariant, and that successful pick flips the
picking to `complet` with every line picked. -/
theorem C4_picking_witness :
    NotaInv (runOps starePick
      [Op.prelua 21 (some 1) none 1 9, Op.nota 20 1 9])
    ∧ (∃ pick lp pick2,
        gasesteLiniePicking starePick.pickings 21 = some (pick, lp)
        ∧ (pasOp starePick (.prelua 21 (some 1) none 1 9)).pickings.find?
            (fun p => p.id == pick.id) = some pick2
        ∧ (pick2.status = "complet"
            ↔ ∀ x ∈ pick2.linii, x.preluata = true)
        ∧ (pick2.status = "complet" ∨ pick2.status = "in_pregatire")) :=
  ⟨C4_picking.1 starePick [Op.prelua 21 (some 1) none 1 9, Op.nota 20 1 9]
      (by unfold NotaInv; decide),
   C4_picking.2 starePick 21 (some 1) none 1 9
      (pasOp starePick (.prelua 21 (some 1) none 1 9))
      (by decide) rfl⟩

unseal Rat.add Rat.sub Rat.mul Rat.inv in
/-- Claim C9 witness: on the fixture whose single line is already picked
(four units recorded) and whose cell 7 holds ten units, picking three
more units is accepted: the bucket drops from ten to seven, a second
order-exit movement is appended, and the line now records the new
quantity, actor and timestamp. -/
theorem C9_prelua_dublu_witness :
    liniaPreluata.preluata = true
    ∧ (∃ s2, applyOp starePreluaDublu (.prelua 21 (some 3) none 1 9) = .ok s2
        ∧ s2.stocuri.find? (stocKey liniaPreluata.cod_intern (some 7))
            = some { stocMult7 with
                cantitate := stocMult7.cantitate
                  - (some (3:ℚ)).getD liniaPreluata.cantitate_ceruta,
                ultima_miscare := some 9 }
        ∧ (∃ m, s2.miscari = starePreluaDublu.miscari ++ [m]
            ∧ m.tip = "iesire_comanda"
            ∧ m.cantitate = (some (3:ℚ)).getD liniaPreluata.cantitate_ceruta
            ∧ m.celula_id = some 7)
        ∧ (∃ pick2 lp2,
            s2.pickings.find? (fun p => p.id == pickingPreluat.id)
              = some pick2
            ∧ pick2.linii.find? (fun x => x.id == 21) = some lp2
            ∧ lp2.preluata = true
            ∧ lp2.cantitate_preluata
                = (some (3:ℚ)).getD liniaPreluata.cantitate_ceruta
            ∧ lp2.celula_efectiva_id = preluaCelula none liniaPreluata
            ∧ lp2.preluat_de_id = some 1
            ∧ lp2.data_preluare = some 9)) :=
  ⟨by decide,
   C9_prelua_dublu starePreluaDublu 21 (some 3) none 1 9 pickingPreluat
     liniaPreluata 7 stocMult7 (by decide) (by decide) (by decide)
     (by decide) (by decide) (by decide) (by decide) (by decide)
     (by decide)⟩

/-- Claim C10: fulfilling a picking line with no cell in the request and
no suggested source cell on the line succeeds and marks the line picked,
while leaving every stock bucket unchanged and appending no movement. -/
theorem C10_prelua_fara_celula (s : WmsState) (lid : Nat) (cq : Option ℚ)
    (u t : Nat) (pick : Picking) (lp : LiniePicking)
    (hfind : gasesteLiniePicking s.pickings lid = some (pick, lp))
    (hst : pick.status = "in_pregatire")
    (hcel : lp.celula_sursa_id = none)
    (hcant : 0 < cq.getD lp.cantitate_ceruta)
    (hids : s.pickings.Pairwise (fun a b => a.id ≠ b.id)) :
    ∃ s2, applyOp s (.prelua lid cq none u t) = .ok s2
      ∧ s2.stocuri = s.stocuri
      ∧ s2.miscari = s.miscari
      ∧ ∃ pick2 lp2,
          s2.pickings.find? (fun p => p.id == pick.id) = some pick2
          ∧ pick2.linii.find? (fun x => x.id == lid) = some lp2
          ∧ lp2.preluata = true := by
  have hmem : pick ∈ s.pickings := (gasesteLiniePicking_spec hfind).1
  have hlf : pick.linii.find? (fun x => x.id == lid) = some lp :=
    (gasesteLiniePicking_spec hfind).2
  have hfindp : s.pickings.find? (fun p => p.id == pick.id) = some pick :=
    find?_key_unic Picking.id hids hmem
  have hcel2 : preluaCelula none lp = none := hcel
  have hstoc : preluaScadeStoc s lp pick (cq.getD lp.cantitate_ceruta)
      (preluaCelula none lp) u t = .ok (s.stocuri, s.miscari) := by
    unfold preluaScadeStoc
    rw [hcel2]
  show ∃ s2, api_picking_linie_prelua s lid cq none u t = .ok s2 ∧ _
  unfold api_picking_linie_prelua
  rw [hfind]
  dsimp only
  rw [if_neg (fun hc => hc hst), if_neg (not_le.mpr hcant), hstoc]
  dsimp only
  refine ⟨_, rfl, rfl, rfl, ?_⟩
  refine ⟨_,
    { lp with
        preluata := true,
        cantitate_preluata := cq.getD lp.cantitate_ceruta,
        celula_efectiva_id := preluaCelula none lp,
        preluat_de_id := some u, data_preluare := some t },
    find?_updateFirst_const (b := pick) hfindp ?_, ?_, rfl⟩
  · dsimp only
    split <;> simp
  · dsimp only
    split <;> exact find?_updateFirst_self hlf
      (by have hx := List.find?_some hlf; exact hx)

unseal Rat.add Rat.sub Rat.mul Rat.inv in
/-- Claim C10 witness: on the fixture whose line suggests no source cell,
picking two units with no cell in the request is accepted, leaves the
stock buckets and the movement ledger exactly as before, and marks the
line picked. -/
theorem C10_prelua_fara_celula_witness :
    liniaFaraCel.celula_sursa_id = none
    ∧ (∃ s2, applyOp stareFaraCel (.prelua 31 (some 2) none 1 9) = .ok s2
        ∧ s2.stocuri = stareFaraCel.stocuri
        ∧ s2.miscari = stareFaraCel.miscari
        ∧ ∃ pick2 lp2,
            s2.pickings.find? (fun p => p.id == pickingFaraCel.id)
              = some pick2
            ∧ pick2.linii.find? (fun x => x.id == 31) = some lp2
            ∧ lp2.preluata = true) :=
  ⟨by decide,
   C10_prelua_fara_celula stareFaraCel 31 (some 2) 1 9 pickingFaraCel
     liniaFaraCel (by decide) (by decide) (by decide) (by decide)
     (by decide)⟩

/-- Claim C5: a payment whose free text carries a PF reference resolving
to an unpaid proforma within tolerance is matched to that proforma with
type "referinta", whatever the other invoices look like — the reference
rule is tried first. -/
theorem C5_referinta_prioritara (facturi : List Factura) (inc : Incasare)
    (num : Nat) (f : Factura)
    (hpf : cautaPF (inc.detalii ++ " " ++ inc.referinta).toList = some num)
    (hres : facturi.find? (fun g =>
        g.numar == num && statusNeplatit g.status && g.tip == "proforma")
      = some f)
    (htol : |f.total - inc.suma| < 1 / 100) :
    auto_match facturi inc = some (f, "referinta") := by
  have hpas : pasReferinta facturi inc.suma (1 / 100)
      (cautaPF (inc.detalii ++ " " ++ inc.referinta).toList)
      = some (f, "referinta") := by
    rw [hpf]
    unfold pasReferinta
    dsimp only
    unfold gasesteFacturaRef
    rw [hres]
    dsimp only
    rw [if_pos htol]
  have hpri : prioritateReferinta facturi
      (inc.detalii ++ " " ++ inc.referinta).toList inc.suma (1 / 100)
      = some (f, "referinta") := by
    unfold prioritateReferinta
    rw [hpas]
  unfold auto_match
  dsimp only
  rw [hpri]

unseal Rat.add Rat.sub Rat.mul Rat.inv in
/-- Claim C5 witness: the payment "plata PF-123" of 500 matches proforma
123 by reference even though the decoy fiscal invoice of the same amount
and client satisfies the amount-plus-name rule. -/
theorem C5_referinta_prioritara_witness :
    (decide (|fDecoy.total - inc1.suma| < 1 / 100)
        && numePotrivit (toLowerList inc1.platitor_nume)
             (toLowerList cl1.nume)) = true
    ∧ auto_match [fDecoy, fPF] inc1 = some (fPF, "referinta") :=
  ⟨by decide,
   C5_referinta_prioritara [fDecoy, fPF] inc1 123 fPF (by decide)
     (by decide) (by decide)⟩

/-- A completed `ruleazaLot` run proves no payment of the batch matched:
the statements that would bump `matched` or the per-type counters sit
after the raising line 323, so a completed run counts the whole batch in
`total` and nothing else. -/
theorem ruleazaLot_ok (facturi : List Factura) (l : List Incasare) :
    ∀ (st st2 : Stats), ruleazaLot facturi st l = .ok st2 →
      st2.matched = st.matched ∧ st2.types = st.types
      ∧ st2.total = st.total + l.length
      ∧ ∀ inc ∈ l, auto_match facturi inc = none := by
  induction l with
  | nil =>
      intro st st2 h
      injection h with h
      subst h
      exact ⟨rfl, rfl, rfl, fun inc hm => absurd hm (List.not_mem_nil inc)⟩
  | cons i rest ih =>
      intro st st2 h
      unfold ruleazaLot at h
      dsimp only at h
      split at h
      · rename_i hnone
        obtain ⟨h1, h2, h3, h4⟩ := ih _ _ h
        have h1' : st2.matched = st.matched := h1
        have h2' : st2.types = st.types := h2
        have h3' : st2.total = st.total + 1 + rest.length := h3
        refine ⟨h1', h2', by simp only [List.length_cons]; omega, ?_⟩
        intro inc hm
        rcases List.mem_cons.mp hm with rfl | hm2
        · exact hnone
        · exact h4 inc hm2
      · cases h

/-- Any batch containing a payment that `auto_match` matches aborts with
the line-323 `NameError`. -/
theorem ruleazaLot_esueaza (facturi : List Factura) (l : List Incasare) :
    ∀ st : Stats, (∃ inc ∈ l, (auto_match facturi inc).isSome = true) →
      ruleazaLot facturi st l
        = .error "NameError: name 'timezone' is not defined" := by
  induction l with
  | nil =>
      intro st h
      obtain ⟨inc, hm, _⟩ := h
      cases hm
  | cons i rest ih =>
      intro st h
      unfold ruleazaLot
      dsimp only
      cases hm : auto_match facturi i with
      | some r => rfl
      | none =>
          obtain ⟨inc, hmem, hsome⟩ := h
          rcases List.mem_cons.mp hmem with rfl | hmem2
          · rw [hm] at hsome
            simp at hsome
          · exact ih _ ⟨inc, hmem2, hsome⟩

/-- bank_service.py `reconcile_batch` completes only when no payment of
the batch matches; the stats of a completed run count the whole batch
with zero matches and no per-type entries, and the store it hands to the
commit is the one the call started from. -/
theorem reconcile_batch_fara_potriviri (db : BancaDB)
    (ids : Option (List Nat)) (db2 : BancaDB) (st : Stats)
    (h : reconcile_batch db ids = .ok (db2, st)) :
    db2 = db ∧ st.matched = 0 ∧ st.types = []
      ∧ st.total = (lotIncasari db ids).length
      ∧ ∀ inc ∈ lotIncasari db ids, auto_match db.facturi inc = none := by
  unfold reconcile_batch at h
  split at h
  · cases h
  · rename_i st0 hrun
    injection h with hp
    have hdb : db2 = db := (congrArg Prod.fst hp).symm
    have hst : st = st0 := (congrArg Prod.snd hp).symm
    obtain ⟨h1, h2, h3, h4⟩ :=
      ruleazaLot_ok db.facturi (lotIncasari db ids) _ _ hrun
    have h1' : st0.matched = 0 := h1
    have h2' : st0.types = [] := h2
    have h3' : st0.total = 0 + (lotIncasari db ids).length := h3
    subst hst
    exact ⟨hdb, h1', h2', by omega, h4⟩

/-- No `reconcile_batch` call ever changes the committed store: a batch
with a match crashes before the single commit, a match-free batch
commits a store its loop never touched. -/
theorem reconcile_batch_commit_neschimbat (db : BancaDB)
    (ids : Option (List Nat)) : reconcile_batch_commit db ids = db := by
  unfold reconcile_batch_commit reconcile_batch
  cases hrez : ruleazaLot db.facturi
      { total := 0, matched := 0, types := [] } (lotIncasari db ids) with
  | error e => rfl
  | ok st => rfl

unseal Rat.add Rat.sub Rat.mul Rat.inv in
/-- On the two-payment fixture, whose first payment matches proforma 123
by reference, the batch raises the line-323 `NameError` and the
committed store is unchanged — the matched payment stays
'nereconciliat'. -/
theorem reconcile_batch_exemplu :
    (auto_match bancaFix.facturi inc1).isSome = true
    ∧ reconcile_batch bancaFix none
        = .error "NameError: name 'timezone' is not defined"
    ∧ reconcile_batch_commit bancaFix none = bancaFix
    ∧ ((reconcile_batch_commit bancaFix none).incasari.find?
        (fun i => i.id == inc1.id)).map Incasare.status
        = some "nereconciliat" := by
  refine ⟨by decide, ?_, by decide, by decide⟩
  rfl

end HSLerp
